import Mathlib

/-!
Shallow embedding of the rust-spades engine (src/cards.rs, src/scoring.rs,
src/game_state.rs, src/result.rs, src/lib.rs) and proofs about its claims.

Machine integers are modelled as Nat/Int: all arithmetic the engine performs
stays far below the u8/i32 bounds on the inputs the theorems quantify over,
and the theorems carry the corresponding hypotheses where it matters.
-/

namespace Spades

/-! ## Card domain (src/cards.rs) -/

/-- Suit enum from src/cards.rs (discriminants 0..3, Spades = 3). -/
inductive Suit
  | Clubs
  | Diamonds
  | Hearts
  | Spades
deriving DecidableEq, Repr

/-- Numeric discriminant of a suit (`as u8` in the source). -/
def Suit.val : Suit → Nat
  | .Clubs => 0
  | .Diamonds => 1
  | .Hearts => 2
  | .Spades => 3

/-- Rank enum from src/cards.rs (discriminants 2..14). -/
inductive Rank
  | Two
  | Three
  | Four
  | Five
  | Six
  | Seven
  | Eight
  | Nine
  | Ten
  | Jack
  | Queen
  | King
  | Ace
deriving DecidableEq, Repr

/-- Numeric discriminant of a rank (`as u8` in the source). -/
def Rank.val : Rank → Nat
  | .Two => 2
  | .Three => 3
  | .Four => 4
  | .Five => 5
  | .Six => 6
  | .Seven => 7
  | .Eight => 8
  | .Nine => 9
  | .Ten => 10
  | .Jack => 11
  | .Queen => 12
  | .King => 13
  | .Ace => 14

/-- Card struct from src/cards.rs. -/
structure Card where
  suit : Suit
  rank : Rank
deriving DecidableEq, Repr

/-- Total order key used by `impl Ord for Card`: suit * 15 + rank. -/
def cardKey (c : Card) : Nat :=
  c.suit.val * 15 + c.rank.val

/-- The loop body of `get_trick_winner`: scans the remaining cards keeping
the current best card and its index, exactly as the Rust `for` loop does
(a candidate replaces the best if it shares the best's suit with strictly
higher rank, or if it is a Spade while the best has a different suit). -/
def trickLoop : Card → Nat → Nat → List Card → Nat × Card
  | best, wi, _, [] => (wi, best)
  | best, wi, i, c :: rest =>
    if c.suit = best.suit then
      if best.rank.val < c.rank.val then trickLoop c i (i + 1) rest
      else trickLoop best wi (i + 1) rest
    else if c.suit = Suit.Spades then trickLoop c i (i + 1) rest
    else trickLoop best wi (i + 1) rest

/-- Relative (0-based, play-order) index of the winning card: the Rust loop
initialised with best = others[0], winning_index = 0, scanning all cards. -/
def relTrickWinner (others : List Card) : Nat :=
  match others with
  | [] => 0
  | c0 :: _ => (trickLoop c0 0 0 others).1

/-- `get_trick_winner` from src/cards.rs: returns
(winning_index + leading_player_index) % 4. -/
def get_trick_winner (leading_player_index : Nat) (others : List Card) : Nat :=
  (relTrickWinner others + leading_player_index) % 4



theorem trickLoop_fst (rest : List Card) : ∀ (best : Card) (wi i : Nat),
    (trickLoop best wi i rest).1 = wi ∨
    (i ≤ (trickLoop best wi i rest).1 ∧ (trickLoop best wi i rest).1 < i + rest.length) := by
  induction rest with
  | nil => intro best wi i; left; rfl
  | cons c rest ih =>
    intro best wi i
    simp only [trickLoop, List.length_cons]
    split_ifs with h1 h2 h3
    · rcases ih c i (i + 1) with h | h <;> omega
    · rcases ih best wi (i + 1) with h | h <;> omega
    · rcases ih c i (i + 1) with h | h <;> omega
    · rcases ih best wi (i + 1) with h | h <;> omega

theorem trickLoop_get (rest : List Card) : ∀ (t : List Card) (best d : Card) (wi i : Nat),
    (∀ k, k < rest.length → t.getD (i + k) d = rest.getD k d) →
    t.getD wi d = best →
    t.getD (trickLoop best wi i rest).1 d = (trickLoop best wi i rest).2 := by
  induction rest with
  | nil => intro t best d wi i hk hw; exact hw
  | cons c rest ih =>
    intro t best d wi i hk hw
    have hc : t.getD i d = c := by
      have h0 := hk 0 (by simp)
      simpa using h0
    have hshift : ∀ k, k < rest.length → t.getD (i + 1 + k) d = rest.getD k d := by
      intro k hk2
      have h := hk (k + 1) (by simp; omega)
      rw [show i + 1 + k = i + (k + 1) by omega]
      simpa using h
    simp only [trickLoop]
    split_ifs with h1 h2 h3
    · exact ih t c d i (i + 1) hshift hc
    · exact ih t best d wi (i + 1) hshift hw
    · exact ih t c d i (i + 1) hshift hc
    · exact ih t best d wi (i + 1) hshift hw

theorem trickLoop_spade (rest : List Card) : ∀ (best : Card) (wi i : Nat),
    (best.suit = Suit.Spades ∨ ∃ c ∈ rest, c.suit = Suit.Spades) →
    (trickLoop best wi i rest).2.suit = Suit.Spades ∧
    (best.suit = Suit.Spades → best.rank.val ≤ (trickLoop best wi i rest).2.rank.val) ∧
    (∀ c ∈ rest, c.suit = Suit.Spades → c.rank.val ≤ (trickLoop best wi i rest).2.rank.val) := by
  induction rest with
  | nil =>
    intro best wi i h
    refine ⟨?_, fun _ => le_refl _, by simp⟩
    simpa using h
  | cons c rest ih =>
    intro best wi i h
    simp only [trickLoop]
    split_ifs with h1 h2 h3
    · -- same suit, candidate higher: best becomes c
      have prem : c.suit = Suit.Spades ∨ ∃ x ∈ rest, x.suit = Suit.Spades := by
        rcases h with hb | ⟨x, hx, hxs⟩
        · exact Or.inl (h1.trans hb)
        · rcases List.mem_cons.1 hx with rfl | hx2
          · exact Or.inl hxs
          · exact Or.inr ⟨x, hx2, hxs⟩
      obtain ⟨ha, hb, hc⟩ := ih c i (i + 1) prem
      refine ⟨ha, fun hbs => ?_, ?_⟩
      · exact le_trans (le_of_lt h2) (hb (h1.trans hbs))
      · intro x hx hxs
        rcases List.mem_cons.1 hx with rfl | hx2
        · exact hb hxs
        · exact hc x hx2 hxs
    · -- same suit, candidate not higher: best stays
      have prem : best.suit = Suit.Spades ∨ ∃ x ∈ rest, x.suit = Suit.Spades := by
        rcases h with hb | ⟨x, hx, hxs⟩
        · exact Or.inl hb
        · rcases List.mem_cons.1 hx with rfl | hx2
          · exact Or.inl (h1 ▸ hxs)
          · exact Or.inr ⟨x, hx2, hxs⟩
      obtain ⟨ha, hb, hc⟩ := ih best wi (i + 1) prem
      refine ⟨ha, hb, ?_⟩
      intro x hx hxs
      rcases List.mem_cons.1 hx with rfl | hx2
      · exact le_trans (by omega) (hb (h1 ▸ hxs))
      · exact hc x hx2 hxs
    · -- candidate is a spade, different suit: best becomes c
      obtain ⟨ha, hb, hc⟩ := ih c i (i + 1) (Or.inl h3)
      refine ⟨ha, fun hbs => absurd (h3.trans hbs.symm) h1, ?_⟩
      intro x hx hxs
      rcases List.mem_cons.1 hx with rfl | hx2
      · exact hb hxs
      · exact hc x hx2 hxs
    · -- candidate neither matches suit nor is a spade: best stays
      have prem : best.suit = Suit.Spades ∨ ∃ x ∈ rest, x.suit = Suit.Spades := by
        rcases h with hb | ⟨x, hx, hxs⟩
        · exact Or.inl hb
        · rcases List.mem_cons.1 hx with rfl | hx2
          · exact absurd hxs h3
          · exact Or.inr ⟨x, hx2, hxs⟩
      obtain ⟨ha, hb, hc⟩ := ih best wi (i + 1) prem
      refine ⟨ha, hb, ?_⟩
      intro x hx hxs
      rcases List.mem_cons.1 hx with rfl | hx2
      · exact absurd hxs h3
      · exact hc x hx2 hxs

theorem trickLoop_nospade (rest : List Card) : ∀ (best : Card) (wi i : Nat),
    best.suit ≠ Suit.Spades → (∀ c ∈ rest, c.suit ≠ Suit.Spades) →
    (trickLoop best wi i rest).2.suit = best.suit ∧
    best.rank.val ≤ (trickLoop best wi i rest).2.rank.val ∧
    (∀ c ∈ rest, c.suit = best.suit → c.rank.val ≤ (trickLoop best wi i rest).2.rank.val) := by
  induction rest with
  | nil =>
    intro best wi i hb hr
    exact ⟨rfl, le_refl _, by simp⟩
  | cons c rest ih =>
    intro best wi i hb hr
    have hcns : c.suit ≠ Suit.Spades := hr c (List.mem_cons_self c rest)
    have hrest : ∀ x ∈ rest, x.suit ≠ Suit.Spades := fun x hx => hr x (List.mem_cons_of_mem c hx)
    simp only [trickLoop]
    split_ifs with h1 h2
    · obtain ⟨ha, hbnd, hc⟩ := ih c i (i + 1) (by rw [h1]; exact hb) hrest
      refine ⟨ha.trans h1, le_trans (le_of_lt h2) hbnd, ?_⟩
      intro x hx hxs
      rcases List.mem_cons.1 hx with rfl | hx2
      · exact hbnd
      · exact hc x hx2 (hxs.trans h1.symm)
    · obtain ⟨ha, hbnd, hc⟩ := ih best wi (i + 1) hb hrest
      refine ⟨ha, hbnd, ?_⟩
      intro x hx hxs
      rcases List.mem_cons.1 hx with rfl | hx2
      · omega
      · exact hc x hx2 hxs
    · obtain ⟨ha, hbnd, hc⟩ := ih best wi (i + 1) hb hrest
      refine ⟨ha, hbnd, ?_⟩
      intro x hx hxs
      rcases List.mem_cons.1 hx with rfl | hx2
      · exact absurd hxs h1
      · exact hc x hx2 hxs


end Spades

namespace Spades

/-- C5: for every 4-card trick (in play order from the leader) and leading
seat in [0,3], get_trick_winner returns (relative winning position +
leading index) mod 4, where the winning card is the highest spade if any
spade was played, and otherwise the highest card of the led suit. -/
theorem get_trick_winner_correct (lead : Nat) (c0 c1 c2 c3 : Card) (hlead : lead < 4) :
    get_trick_winner lead [c0, c1, c2, c3] =
      (relTrickWinner [c0, c1, c2, c3] + lead) % 4 ∧
    relTrickWinner [c0, c1, c2, c3] < 4 ∧
    ((c0.suit = Suit.Spades ∨ c1.suit = Suit.Spades ∨ c2.suit = Suit.Spades ∨
        c3.suit = Suit.Spades) →
      (([c0, c1, c2, c3].getD (relTrickWinner [c0, c1, c2, c3]) c0).suit = Suit.Spades ∧
       ∀ c ∈ [c0, c1, c2, c3], c.suit = Suit.Spades →
         c.rank.val ≤ ([c0, c1, c2, c3].getD (relTrickWinner [c0, c1, c2, c3]) c0).rank.val)) ∧
    ((c0.suit ≠ Suit.Spades ∧ c1.suit ≠ Suit.Spades ∧ c2.suit ≠ Suit.Spades ∧
        c3.suit ≠ Suit.Spades) →
      (([c0, c1, c2, c3].getD (relTrickWinner [c0, c1, c2, c3]) c0).suit = c0.suit ∧
       ∀ c ∈ [c0, c1, c2, c3], c.suit = c0.suit →
         c.rank.val ≤ ([c0, c1, c2, c3].getD (relTrickWinner [c0, c1, c2, c3]) c0).rank.val)) := by
  have hrel : relTrickWinner [c0, c1, c2, c3] = (trickLoop c0 0 0 [c0, c1, c2, c3]).1 := rfl
  have hget : [c0, c1, c2, c3].getD (trickLoop c0 0 0 [c0, c1, c2, c3]).1 c0
      = (trickLoop c0 0 0 [c0, c1, c2, c3]).2 :=
    trickLoop_get [c0, c1, c2, c3] [c0, c1, c2, c3] c0 c0 0 0
      (fun k hk => by rw [Nat.zero_add]) rfl
  refine ⟨rfl, ?_, ?_, ?_⟩
  · rw [hrel]
    rcases trickLoop_fst [c0, c1, c2, c3] c0 0 0 with h | h
    · omega
    · simp only [List.length_cons, List.length_nil] at h
      omega
  · intro hsp
    have prem : c0.suit = Suit.Spades ∨ ∃ c ∈ [c0, c1, c2, c3], c.suit = Suit.Spades := by
      rcases hsp with h | h | h | h
      · exact Or.inl h
      · exact Or.inr ⟨c1, by simp, h⟩
      · exact Or.inr ⟨c2, by simp, h⟩
      · exact Or.inr ⟨c3, by simp, h⟩
    obtain ⟨ha, hb, hc⟩ := trickLoop_spade [c0, c1, c2, c3] c0 0 0 prem
    rw [hrel, hget]
    exact ⟨ha, hc⟩
  · rintro ⟨h0, h1, h2, h3⟩
    have hall : ∀ c ∈ [c0, c1, c2, c3], c.suit ≠ Suit.Spades := by
      intro c hcmem
      simp only [List.mem_cons, List.not_mem_nil, or_false] at hcmem
      rcases hcmem with rfl | rfl | rfl | rfl <;> assumption
    obtain ⟨ha, hb, hc⟩ := trickLoop_nospade [c0, c1, c2, c3] c0 0 0 h0 hall
    rw [hrel, hget]
    exact ⟨ha, hc⟩

/-- Concrete cards used by witnesses, from the unit tests of src/cards.rs. -/
def cardKS : Card := ⟨Suit.Spades, Rank.King⟩

/-- Three of spades. -/
def card3S : Card := ⟨Suit.Spades, Rank.Three⟩

/-- Queen of clubs. -/
def cardQC : Card := ⟨Suit.Clubs, Rank.Queen⟩

/-- Jack of diamonds. -/
def cardJD : Card := ⟨Suit.Diamonds, Rank.Jack⟩

/-- Witness for C5 at the concrete trick (K spades, 3 spades, Q clubs,
J diamonds) led by seat 1, from the unit tests of src/cards.rs. -/
theorem get_trick_winner_correct_witness :
    (1 : Nat) < 4 ∧
    (get_trick_winner 1 [cardKS, card3S, cardQC, cardJD] =
      (relTrickWinner [cardKS, card3S, cardQC, cardJD] + 1) % 4 ∧
    relTrickWinner [cardKS, card3S, cardQC, cardJD] < 4 ∧
    ((cardKS.suit = Suit.Spades ∨ card3S.suit = Suit.Spades ∨ cardQC.suit = Suit.Spades ∨
        cardJD.suit = Suit.Spades) →
      (([cardKS, card3S, cardQC, cardJD].getD
          (relTrickWinner [cardKS, card3S, cardQC, cardJD]) cardKS).suit = Suit.Spades ∧
       ∀ c ∈ [cardKS, card3S, cardQC, cardJD], c.suit = Suit.Spades →
         c.rank.val ≤ ([cardKS, card3S, cardQC, cardJD].getD
           (relTrickWinner [cardKS, card3S, cardQC, cardJD]) cardKS).rank.val)) ∧
    ((cardKS.suit ≠ Suit.Spades ∧ card3S.suit ≠ Suit.Spades ∧ cardQC.suit ≠ Suit.Spades ∧
        cardJD.suit ≠ Suit.Spades) →
      (([cardKS, card3S, cardQC, cardJD].getD
          (relTrickWinner [cardKS, card3S, cardQC, cardJD]) cardKS).suit = cardKS.suit ∧
       ∀ c ∈ [cardKS, card3S, cardQC, cardJD], c.suit = cardKS.suit →
         c.rank.val ≤ ([cardKS, card3S, cardQC, cardJD].getD
           (relTrickWinner [cardKS, card3S, cardQC, cardJD]) cardKS).rank.val))) :=
  ⟨by decide, get_trick_winner_correct 1 cardKS card3S cardQC cardJD (by decide)⟩


/-! ## Scoring engine (src/scoring.rs) -/

/-- Bet enum from src/scoring.rs. -/
inductive Bet
  | Amount (amount : Nat)
  | Nil
  | BlindNil
deriving DecidableEq, Repr

/-- Per-player trick-win flags (`PlayerState` in src/scoring.rs,
`won_trick: [bool; 13]`). -/
structure PlayerState where
  won_trick : List Bool
deriving DecidableEq, Repr

/-- `PlayerState::default()`: thirteen false flags. -/
def PlayerState.default : PlayerState :=
  ⟨List.replicate 13 false⟩

/-- `won_trick.iter().filter(|x| **x).count()` for one player. -/
def PlayerState.tricksWon (p : PlayerState) : Nat :=
  p.won_trick.count true

/-- `TeamState` from src/scoring.rs. -/
structure TeamState where
  tricks : Nat
  game_bags : Nat
  cumulative_bags : Nat
  game_points : Int
  cumulative_points : Int
deriving DecidableEq, Repr

/-- `TeamState::default()`: all zeroes. -/
def TeamState.default : TeamState :=
  ⟨0, 0, 0, 0, 0⟩

/-- The numeric amount of a bet: `Bet::Amount(a) => a`, Nil and BlindNil
contribute 0 (the `first_player_bet` / `second_player_bet` match blocks of
calculate_round_totals). -/
def Bet.effective : Bet → Nat
  | .Amount amount => amount
  | .Nil => 0
  | .BlindNil => 0

/-- `TeamState::calculate_round_totals` from src/scoring.rs, transcribed
branch for branch.  The in-place mutation is modelled by returning the
updated TeamState.  The source's `assert!` statements (each player at most
13 tricks) are hypotheses of the theorems that need them. -/
def TeamState.calculate_round_totals (ts : TeamState) (first_bet : Bet)
    (first_player : PlayerState) (second_bet : Bet) (second_player : PlayerState) :
    TeamState :=
  let first_player_tricks := first_player.tricksWon
  let second_player_tricks := second_player.tricksWon
  let tricks := first_player_tricks + second_player_tricks
  let first_player_bet := first_bet.effective
  let second_player_bet := second_bet.effective
  let team_bets := first_player_bet + second_player_bet
  let game_bags : Nat :=
    if team_bets ≤ tricks then tricks - team_bets else 0
  let game_points : Int :=
    if team_bets ≤ tricks then
      if first_player_bet ≠ 0 ∧ second_player_bet ≠ 0 then
        (tricks : Int) - (team_bets : Int) + (team_bets : Int) * 10
      else 0
    else 0 - (team_bets : Int) * 10
  let game_points :=
    if first_player_bet = 0 then
      let change_amount : Int := if first_bet = Bet.BlindNil then 200 else 100
      let game_points :=
        if first_player_tricks = 0 then game_points + change_amount
        else game_points - change_amount
      if team_bets ≤ second_player_tricks ∧ second_player_bet ≠ 0 then
        game_points + ((tricks : Int) - (team_bets : Int) + (team_bets : Int) * 10)
      else game_points
    else game_points
  let game_points :=
    if second_player_bet = 0 then
      let change_amount : Int := if second_bet = Bet.BlindNil then 200 else 100
      let game_points :=
        if second_player_tricks = 0 then game_points + change_amount
        else game_points - change_amount
      if team_bets ≤ first_player_tricks ∧ first_player_bet ≠ 0 then
        game_points + ((tricks : Int) - (team_bets : Int) + (team_bets : Int) * 10)
      else game_points
    else game_points
  let cumulative_bags_raw := ts.cumulative_bags + game_bags
  let game_points :=
    if 10 ≤ cumulative_bags_raw then game_points - 100 else game_points
  let cumulative_bags :=
    if 10 ≤ cumulative_bags_raw then cumulative_bags_raw - 10 else cumulative_bags_raw
  { tricks := tricks
    game_bags := game_bags
    cumulative_bags := cumulative_bags
    game_points := game_points
    cumulative_points := ts.cumulative_points + game_points }


/-- A player who won the first n tricks of the round (helper used to build
concrete PlayerState values). -/
def wonFirst (n : Nat) : PlayerState :=
  ⟨(List.range 13).map (fun i => decide (i < n))⟩

/-- The Nil/BlindNil settlement contribution of one partner to the round
points, read off the two symmetric if-blocks on a zero effective bet in
calculate_round_totals: plus or minus 100 (200 for BlindNil) by the
partner's own trick count, plus the fallback overtrick bonus when the other
partner's own tricks meet the nonzero combined bet. -/
def nilTerm (bet : Bet) (ownTricks partnerTricks team_bets tricks : Nat)
    (partnerBet : Bet) : Int :=
  if bet.effective = 0 then
    (if ownTricks = 0 then (if bet = Bet.BlindNil then (200 : Int) else 100)
     else -(if bet = Bet.BlindNil then (200 : Int) else 100))
    + (if team_bets ≤ partnerTricks ∧ partnerBet.effective ≠ 0 then
        (tricks : Int) - (team_bets : Int) + (team_bets : Int) * 10
       else 0)
  else 0

/-- The bag-overflow penalty applied at settlement: -100 when the prior
cumulative bags plus this round's bags reach 10. -/
def bagPenalty (ts : TeamState) (first_bet second_bet : Bet) (tricks : Nat) : Int :=
  let team_bets := first_bet.effective + second_bet.effective
  let game_bags := if team_bets ≤ tricks then tricks - team_bets else 0
  if 10 ≤ ts.cumulative_bags + game_bags then -100 else 0

/-- One zero-bet settlement block of calculate_round_totals, abstracted over
the running points value and the branch conditions. -/
def nilStage (gp ca bonus : Int) (cz ctz cf : Prop)
    [Decidable cz] [Decidable ctz] [Decidable cf] : Int :=
  if cz then
    let g := if ctz then gp + ca else gp - ca
    if cf then g + bonus else g
  else gp

/-- The bag-overflow adjustment of the running points value, abstracted over
the overflow condition. -/
def bagStage (gp : Int) (cb : Prop) [Decidable cb] : Int :=
  if cb then gp - 100 else gp

theorem nilStage_eq (gp ca bonus : Int) (cz ctz cf : Prop)
    [Decidable cz] [Decidable ctz] [Decidable cf] :
    nilStage gp ca bonus cz ctz cf
      = gp + (if cz then (if ctz then ca else -ca) + (if cf then bonus else 0) else 0) := by
  unfold nilStage
  dsimp only
  split_ifs <;> omega

theorem bagStage_eq (gp : Int) (cb : Prop) [Decidable cb] :
    bagStage gp cb = gp + (if cb then -100 else 0) := by
  unfold bagStage
  split_ifs <;> omega

theorem calculate_round_totals_fields (ts : TeamState) (first_bet second_bet : Bet)
    (p1 p2 : PlayerState) :
    (ts.calculate_round_totals first_bet p1 second_bet p2).tricks
      = p1.tricksWon + p2.tricksWon ∧
    (ts.calculate_round_totals first_bet p1 second_bet p2).game_bags
      = (if first_bet.effective + second_bet.effective ≤ p1.tricksWon + p2.tricksWon then
           p1.tricksWon + p2.tricksWon - (first_bet.effective + second_bet.effective)
         else 0) ∧
    (ts.calculate_round_totals first_bet p1 second_bet p2).cumulative_bags
      = (let cb := ts.cumulative_bags +
           (ts.calculate_round_totals first_bet p1 second_bet p2).game_bags
         if 10 ≤ cb then cb - 10 else cb) ∧
    (ts.calculate_round_totals first_bet p1 second_bet p2).cumulative_points
      = ts.cumulative_points
        + (ts.calculate_round_totals first_bet p1 second_bet p2).game_points := by
  simp only [TeamState.calculate_round_totals]
  exact ⟨trivial, trivial, trivial, trivial⟩

set_option maxHeartbeats 4000000 in
theorem calculate_round_totals_points_decomp (ts : TeamState) (first_bet second_bet : Bet)
    (p1 p2 : PlayerState) :
    (ts.calculate_round_totals first_bet p1 second_bet p2).game_points =
      (if first_bet.effective + second_bet.effective ≤ p1.tricksWon + p2.tricksWon ∧
          first_bet.effective ≠ 0 ∧ second_bet.effective ≠ 0 then
        10 * ((first_bet.effective + second_bet.effective : Nat) : Int)
          + (((p1.tricksWon + p2.tricksWon : Nat) : Int)
            - ((first_bet.effective + second_bet.effective : Nat) : Int))
       else 0)
      + (if p1.tricksWon + p2.tricksWon < first_bet.effective + second_bet.effective then
          -(10 * ((first_bet.effective + second_bet.effective : Nat) : Int))
         else 0)
      + nilTerm first_bet p1.tricksWon p2.tricksWon
          (first_bet.effective + second_bet.effective) (p1.tricksWon + p2.tricksWon) second_bet
      + nilTerm second_bet p2.tricksWon p1.tricksWon
          (first_bet.effective + second_bet.effective) (p1.tricksWon + p2.tricksWon) first_bet
      + bagPenalty ts first_bet second_bet (p1.tricksWon + p2.tricksWon) := by
  have e0 : (ts.calculate_round_totals first_bet p1 second_bet p2).game_points
      = bagStage
          (nilStage
            (nilStage
              (if first_bet.effective + second_bet.effective ≤ p1.tricksWon + p2.tricksWon then
                 if first_bet.effective ≠ 0 ∧ second_bet.effective ≠ 0 then
                   ((p1.tricksWon + p2.tricksWon : Nat) : Int)
                     - ((first_bet.effective + second_bet.effective : Nat) : Int)
                     + ((first_bet.effective + second_bet.effective : Nat) : Int) * 10
                 else 0
               else 0 - ((first_bet.effective + second_bet.effective : Nat) : Int) * 10)
              (if first_bet = Bet.BlindNil then 200 else 100)
              (((p1.tricksWon + p2.tricksWon : Nat) : Int)
                - ((first_bet.effective + second_bet.effective : Nat) : Int)
                + ((first_bet.effective + second_bet.effective : Nat) : Int) * 10)
              (first_bet.effective = 0) (p1.tricksWon = 0)
              (first_bet.effective + second_bet.effective ≤ p2.tricksWon ∧
                second_bet.effective ≠ 0))
            (if second_bet = Bet.BlindNil then 200 else 100)
            (((p1.tricksWon + p2.tricksWon : Nat) : Int)
              - ((first_bet.effective + second_bet.effective : Nat) : Int)
              + ((first_bet.effective + second_bet.effective : Nat) : Int) * 10)
            (second_bet.effective = 0) (p2.tricksWon = 0)
            (first_bet.effective + second_bet.effective ≤ p1.tricksWon ∧
              first_bet.effective ≠ 0))
          (10 ≤ ts.cumulative_bags +
            (if first_bet.effective + second_bet.effective ≤ p1.tricksWon + p2.tricksWon then
              p1.tricksWon + p2.tricksWon - (first_bet.effective + second_bet.effective)
             else 0)) := rfl
  rw [e0, bagStage_eq, nilStage_eq, nilStage_eq]
  simp only [nilTerm, bagPenalty, Nat.not_le]
  split_ifs <;> omega

/-- C2: for bets and per-player trick-win flags with combined tricks at most
13 (and amounts within the data model's 0..13 range, matching the u8
arithmetic), calculate_round_totals gives bags = tricks - combined_bet when
tricks meet the combined bet, and the round points decompose as:
10 * combined_bet + (tricks - combined_bet) exactly when tricks meet the bet
and BOTH partners bet a nonzero amount, -10 * combined_bet when tricks fall
short, plus the independent Nil/BlindNil settlements and bag penalty.
The witness instantiates the spec example: Amount(3), Amount(8), 11 tricks
give 0 bags and 110 points. -/
theorem calculate_round_totals_base_scoring (ts : TeamState) (first_bet second_bet : Bet)
    (p1 p2 : PlayerState)
    (h13 : p1.tricksWon + p2.tricksWon ≤ 13)
    (hb1 : first_bet.effective ≤ 13) (hb2 : second_bet.effective ≤ 13) :
    (first_bet.effective + second_bet.effective ≤ p1.tricksWon + p2.tricksWon →
      (ts.calculate_round_totals first_bet p1 second_bet p2).game_bags
        = p1.tricksWon + p2.tricksWon - (first_bet.effective + second_bet.effective)) ∧
    (ts.calculate_round_totals first_bet p1 second_bet p2).game_points =
      (if first_bet.effective + second_bet.effective ≤ p1.tricksWon + p2.tricksWon ∧
          first_bet.effective ≠ 0 ∧ second_bet.effective ≠ 0 then
        10 * ((first_bet.effective + second_bet.effective : Nat) : Int)
          + (((p1.tricksWon + p2.tricksWon : Nat) : Int)
            - ((first_bet.effective + second_bet.effective : Nat) : Int))
       else 0)
      + (if p1.tricksWon + p2.tricksWon < first_bet.effective + second_bet.effective then
          -(10 * ((first_bet.effective + second_bet.effective : Nat) : Int))
         else 0)
      + nilTerm first_bet p1.tricksWon p2.tricksWon
          (first_bet.effective + second_bet.effective) (p1.tricksWon + p2.tricksWon) second_bet
      + nilTerm second_bet p2.tricksWon p1.tricksWon
          (first_bet.effective + second_bet.effective) (p1.tricksWon + p2.tricksWon) first_bet
      + bagPenalty ts first_bet second_bet (p1.tricksWon + p2.tricksWon) := by
  constructor
  · intro hle
    obtain ⟨-, hb, -, -⟩ := calculate_round_totals_fields ts first_bet second_bet p1 p2
    rw [hb, if_pos hle]
  · exact calculate_round_totals_points_decomp ts first_bet second_bet p1 p2

/-- Witness for C2: the spec example, bets Amount(3) and Amount(8) with 11
tricks won, which yields 0 bags and 110 round points. -/
theorem calculate_round_totals_base_scoring_witness :
    ((wonFirst 11).tricksWon + (wonFirst 0).tricksWon ≤ 13 ∧
     (Bet.Amount 3).effective ≤ 13 ∧ (Bet.Amount 8).effective ≤ 13) ∧
    (((Bet.Amount 3).effective + (Bet.Amount 8).effective ≤
          (wonFirst 11).tricksWon + (wonFirst 0).tricksWon →
      (TeamState.default.calculate_round_totals (Bet.Amount 3) (wonFirst 11) (Bet.Amount 8)
          (wonFirst 0)).game_bags
        = (wonFirst 11).tricksWon + (wonFirst 0).tricksWon
          - ((Bet.Amount 3).effective + (Bet.Amount 8).effective)) ∧
    (TeamState.default.calculate_round_totals (Bet.Amount 3) (wonFirst 11) (Bet.Amount 8)
        (wonFirst 0)).game_points =
      (if (Bet.Amount 3).effective + (Bet.Amount 8).effective ≤ (wonFirst 11).tricksWon + (wonFirst 0).tricksWon ∧
          (Bet.Amount 3).effective ≠ 0 ∧ (Bet.Amount 8).effective ≠ 0 then
        10 * (((Bet.Amount 3).effective + (Bet.Amount 8).effective : Nat) : Int)
          + ((((wonFirst 11).tricksWon + (wonFirst 0).tricksWon : Nat) : Int)
            - (((Bet.Amount 3).effective + (Bet.Amount 8).effective : Nat) : Int))
       else 0)
      + (if (wonFirst 11).tricksWon + (wonFirst 0).tricksWon < (Bet.Amount 3).effective + (Bet.Amount 8).effective then
          -(10 * (((Bet.Amount 3).effective + (Bet.Amount 8).effective : Nat) : Int))
         else 0)
      + nilTerm (Bet.Amount 3) (wonFirst 11).tricksWon (wonFirst 0).tricksWon
          ((Bet.Amount 3).effective + (Bet.Amount 8).effective)
          ((wonFirst 11).tricksWon + (wonFirst 0).tricksWon) (Bet.Amount 8)
      + nilTerm (Bet.Amount 8) (wonFirst 0).tricksWon (wonFirst 11).tricksWon
          ((Bet.Amount 3).effective + (Bet.Amount 8).effective)
          ((wonFirst 11).tricksWon + (wonFirst 0).tricksWon) (Bet.Amount 3)
      + bagPenalty TeamState.default (Bet.Amount 3) (Bet.Amount 8)
          ((wonFirst 11).tricksWon + (wonFirst 0).tricksWon)) ∧
    (TeamState.default.calculate_round_totals (Bet.Amount 3) (wonFirst 11) (Bet.Amount 8)
        (wonFirst 0)).game_points = 110 ∧
    (TeamState.default.calculate_round_totals (Bet.Amount 3) (wonFirst 11) (Bet.Amount 8)
        (wonFirst 0)).game_bags = 0 :=
  ⟨⟨by decide, by decide, by decide⟩,
   calculate_round_totals_base_scoring TeamState.default (Bet.Amount 3) (Bet.Amount 8)
     (wonFirst 11) (wonFirst 0) (by decide) (by decide) (by decide),
   by decide, by decide⟩

/-- C3: per-partner Nil/BlindNil settlement in calculate_round_totals,
stated as the fully expanded points equation: a partner whose effective bet
is zero (in particular a Nil or BlindNil bettor) contributes +100 with zero
own tricks and -100 otherwise (200 in place of 100 for BlindNil), plus the
fallback branch that re-adds the overtrick bonus when the OTHER partner's
own trick count meets the combined bet and that other partner bet nonzero.
Nil and BlindNil both have effective bet zero. -/
theorem calculate_round_totals_nil_settlement (ts : TeamState) (first_bet second_bet : Bet)
    (p1 p2 : PlayerState)
    (h13 : p1.tricksWon + p2.tricksWon ≤ 13)
    (hb1 : first_bet.effective ≤ 13) (hb2 : second_bet.effective ≤ 13) :
    ((first_bet = Bet.Nil ∨ first_bet = Bet.BlindNil) → first_bet.effective = 0) ∧
    ((second_bet = Bet.Nil ∨ second_bet = Bet.BlindNil) → second_bet.effective = 0) ∧
    (ts.calculate_round_totals first_bet p1 second_bet p2).game_points =
      (if first_bet.effective + second_bet.effective ≤ p1.tricksWon + p2.tricksWon ∧
          first_bet.effective ≠ 0 ∧ second_bet.effective ≠ 0 then
        10 * ((first_bet.effective + second_bet.effective : Nat) : Int)
          + (((p1.tricksWon + p2.tricksWon : Nat) : Int)
            - ((first_bet.effective + second_bet.effective : Nat) : Int))
       else 0)
      + (if p1.tricksWon + p2.tricksWon < first_bet.effective + second_bet.effective then
          -(10 * ((first_bet.effective + second_bet.effective : Nat) : Int))
         else 0)
      + (if first_bet.effective = 0 then
          (if p1.tricksWon = 0 then (if first_bet = Bet.BlindNil then (200 : Int) else 100)
           else -(if first_bet = Bet.BlindNil then (200 : Int) else 100))
          + (if first_bet.effective + second_bet.effective ≤ p2.tricksWon ∧
                second_bet.effective ≠ 0 then
              ((p1.tricksWon + p2.tricksWon : Nat) : Int)
                - ((first_bet.effective + second_bet.effective : Nat) : Int)
                + ((first_bet.effective + second_bet.effective : Nat) : Int) * 10
             else 0)
         else 0)
      + (if second_bet.effective = 0 then
          (if p2.tricksWon = 0 then (if second_bet = Bet.BlindNil then (200 : Int) else 100)
           else -(if second_bet = Bet.BlindNil then (200 : Int) else 100))
          + (if first_bet.effective + second_bet.effective ≤ p1.tricksWon ∧
                first_bet.effective ≠ 0 then
              ((p1.tricksWon + p2.tricksWon : Nat) : Int)
                - ((first_bet.effective + second_bet.effective : Nat) : Int)
                + ((first_bet.effective + second_bet.effective : Nat) : Int) * 10
             else 0)
         else 0)
      + bagPenalty ts first_bet second_bet (p1.tricksWon + p2.tricksWon) := by
  refine ⟨?_, ?_, ?_⟩
  · rintro (rfl | rfl) <;> rfl
  · rintro (rfl | rfl) <;> rfl
  · have h := calculate_round_totals_points_decomp ts first_bet second_bet p1 p2
    simpa only [nilTerm] using h

/-- Witness for C3: first partner bets Nil and wins no trick while the
second partner bets Amount(11) and wins 11 tricks on their own: the Nil
settlement adds 100 and the fallback branch re-adds the 110 bonus (the
test_game_end_scoring_zero_overtricks_betnil_succeeds scenario of
src/scoring.rs, ending at 210 round points). -/
theorem calculate_round_totals_nil_settlement_witness :
    ((wonFirst 0).tricksWon + (wonFirst 11).tricksWon ≤ 13 ∧
     Bet.Nil.effective ≤ 13 ∧ (Bet.Amount 11).effective ≤ 13) ∧
    (((Bet.Nil = Bet.Nil ∨ Bet.Nil = Bet.BlindNil) → Bet.Nil.effective = 0) ∧
    ((Bet.Amount 11 = Bet.Nil ∨ Bet.Amount 11 = Bet.BlindNil) →
      (Bet.Amount 11).effective = 0) ∧
    (TeamState.default.calculate_round_totals Bet.Nil (wonFirst 0) (Bet.Amount 11)
        (wonFirst 11)).game_points =
      (if Bet.Nil.effective + (Bet.Amount 11).effective ≤ (wonFirst 0).tricksWon + (wonFirst 11).tricksWon ∧
          Bet.Nil.effective ≠ 0 ∧ (Bet.Amount 11).effective ≠ 0 then
        10 * ((Bet.Nil.effective + (Bet.Amount 11).effective : Nat) : Int)
          + ((((wonFirst 0).tricksWon + (wonFirst 11).tricksWon : Nat) : Int)
            - ((Bet.Nil.effective + (Bet.Amount 11).effective : Nat) : Int))
       else 0)
      + (if (wonFirst 0).tricksWon + (wonFirst 11).tricksWon < Bet.Nil.effective + (Bet.Amount 11).effective then
          -(10 * ((Bet.Nil.effective + (Bet.Amount 11).effective : Nat) : Int))
         else 0)
      + (if Bet.Nil.effective = 0 then
          (if (wonFirst 0).tricksWon = 0 then (if Bet.Nil = Bet.BlindNil then (200 : Int) else 100)
           else -(if Bet.Nil = Bet.BlindNil then (200 : Int) else 100))
          + (if Bet.Nil.effective + (Bet.Amount 11).effective ≤ (wonFirst 11).tricksWon ∧
                (Bet.Amount 11).effective ≠ 0 then
              (((wonFirst 0).tricksWon + (wonFirst 11).tricksWon : Nat) : Int)
                - ((Bet.Nil.effective + (Bet.Amount 11).effective : Nat) : Int)
                + ((Bet.Nil.effective + (Bet.Amount 11).effective : Nat) : Int) * 10
             else 0)
         else 0)
      + (if (Bet.Amount 11).effective = 0 then
          (if (wonFirst 11).tricksWon = 0 then
            (if Bet.Amount 11 = Bet.BlindNil then (200 : Int) else 100)
           else -(if Bet.Amount 11 = Bet.BlindNil then (200 : Int) else 100))
          + (if Bet.Nil.effective + (Bet.Amount 11).effective ≤ (wonFirst 0).tricksWon ∧
                Bet.Nil.effective ≠ 0 then
              (((wonFirst 0).tricksWon + (wonFirst 11).tricksWon : Nat) : Int)
                - ((Bet.Nil.effective + (Bet.Amount 11).effective : Nat) : Int)
                + ((Bet.Nil.effective + (Bet.Amount 11).effective : Nat) : Int) * 10
             else 0)
         else 0)
      + bagPenalty TeamState.default Bet.Nil (Bet.Amount 11)
          ((wonFirst 0).tricksWon + (wonFirst 11).tricksWon)) ∧
    (TeamState.default.calculate_round_totals Bet.Nil (wonFirst 0) (Bet.Amount 11)
        (wonFirst 11)).game_points = 210 :=
  ⟨⟨by decide, by decide, by decide⟩,
   calculate_round_totals_nil_settlement TeamState.default Bet.Nil (Bet.Amount 11)
     (wonFirst 0) (wonFirst 11) (by decide) (by decide) (by decide),
   by decide⟩

/-- C4 counterexample: a team entering settlement with cumulative_bags = 9
whose partners both bet Nil while winning all 13 tricks earns 13 bags; the
code subtracts 10 only once, leaving cumulative_bags = 12, outside [0, 9]. -/
theorem cumulative_bags_exceed_nine_cex :
    ((⟨0, 0, 9, 0, 0⟩ : TeamState).calculate_round_totals Bet.Nil (wonFirst 13)
        Bet.Nil (wonFirst 0)).cumulative_bags = 12 ∧
    ¬ ((⟨0, 0, 9, 0, 0⟩ : TeamState).calculate_round_totals Bet.Nil (wonFirst 13)
        Bet.Nil (wonFirst 0)).cumulative_bags ≤ 9 := by
  decide

/-- C4 amended: after settlement cumulative_bags lies in [0, 9] (it is a
Nat, so only the upper bound is substantive) provided the prior
cumulative_bags plus this round's bags is at most 19; the settlement
subtracts 10 at most once, so a team entering with high bags that earns
more than 10 new bags can end the round above 9. -/
theorem cumulative_bags_bounded (ts : TeamState) (first_bet second_bet : Bet)
    (p1 p2 : PlayerState)
    (h : ts.cumulative_bags
        + (ts.calculate_round_totals first_bet p1 second_bet p2).game_bags ≤ 19) :
    (ts.calculate_round_totals first_bet p1 second_bet p2).cumulative_bags ≤ 9 := by
  obtain ⟨-, hbags, hcb, -⟩ := calculate_round_totals_fields ts first_bet second_bet p1 p2
  rw [hcb]
  dsimp only
  split_ifs <;> omega

/-- Witness for C4 amended: 13 bags on top of 0 prior bags roll over to 3. -/
theorem cumulative_bags_bounded_witness :
    TeamState.default.cumulative_bags
        + (TeamState.default.calculate_round_totals Bet.Nil (wonFirst 13) Bet.Nil
            (wonFirst 0)).game_bags ≤ 19 ∧
    (TeamState.default.calculate_round_totals Bet.Nil (wonFirst 13) Bet.Nil
        (wonFirst 0)).cumulative_bags ≤ 9 :=
  ⟨by decide,
   cumulative_bags_bounded TeamState.default Bet.Nil Bet.Nil (wonFirst 13) (wonFirst 0)
     (by decide)⟩

/-! ## Game state machine (src/lib.rs, src/game_state.rs, src/result.rs) -/

/-- State enum from src/game_state.rs: the payload of Betting and Trick is
the rotation counter (players who have acted in the current cycle). -/
inductive State
  | GameNotStarted
  | Betting (n : Nat)
  | Trick (n : Nat)
  | GameCompleted
deriving DecidableEq, Repr

/-- SpadesError from src/result.rs, plus the variant BetImproperSeenHand.
Modelled from the spec: `SpadesError::BetImproperSeenHand` is produced by
`Game::can_place_bet` in src/lib.rs and asserted by its tests, but the
variant declaration itself is absent from the `SpadesError` enum in
src/result.rs; the spec describes it as the hand-visibility
(improper-blind-nil) error. -/
inductive SpadesError
  | InvalidUuid
  | GameNotStarted
  | GameCompleted
  | GameNotCompleted
  | CardIncorrectSuit
  | CardNotInHand
  | ImproperGameStage
  | InternalError
  | BetImproperSeenHand
deriving DecidableEq, Repr

/-- BetResult from src/lib.rs. -/
inductive BetResult
  | MadeBet
  | CompletedBetting
deriving DecidableEq, Repr

/-- PlayCardResult from src/lib.rs. -/
inductive PlayCardResult
  | CardPlayed
  | TrickCompleted
  | GameCompleted
deriving DecidableEq, Repr

/-- Player struct from src/lib.rs; Uid(u64) is modelled as Nat. -/
structure Player where
  id : Nat
  seen_hand : Bool
  hand : List Card
deriving DecidableEq, Repr

/-- `Player::new`. -/
def Player.new (id : Nat) : Player :=
  ⟨id, false, []⟩

/-- Fallback player for out-of-range list indexing (never reached: the
player array always has four entries). -/
def defaultPlayer : Player :=
  Player.new 0

/-- GameConfig from src/scoring.rs. -/
structure GameConfig where
  max_points : Int
deriving DecidableEq, Repr

/-- Scoring from src/scoring.rs.  The fixed-size arrays team: [TeamState; 2],
players: [PlayerState; 4] and bets_placed: [Bet; 4] are modelled as lists of
those lengths. -/
structure Scoring where
  config : GameConfig
  team : List TeamState
  players : List PlayerState
  in_betting_stage : Bool
  bets_placed : List Bet
  is_over : Bool
  round : Nat
  trick : Nat
deriving DecidableEq, Repr

/-- `Scoring::default()`. -/
def Scoring.mkDefault : Scoring :=
  { config := ⟨500⟩
    team := [TeamState.default, TeamState.default]
    players := List.replicate 4 PlayerState.default
    in_betting_stage := true
    bets_placed := List.replicate 4 (Bet.Amount 0)
    is_over := false
    round := 0
    trick := 0 }

/-- Modelled from the spec: `Scoring::new(max_points)` is called by
`Game::new` in src/lib.rs but its body is absent from src/scoring.rs; per
the spec it is the initial scoring state carrying the configured points
threshold. -/
def Scoring.new (max_points : Int) : Scoring :=
  { Scoring.mkDefault with config := ⟨max_points⟩ }

/-- `Scoring::add_bet`: records the bet in the scoring component's own
bets_placed array. -/
def Scoring.add_bet (s : Scoring) (current_player_index : Nat) (bet : Bet) : Scoring :=
  { s with bets_placed := s.bets_placed.set current_player_index bet }

/-- `Scoring::betting_over`: resets the trick counter, leaves the betting
stage, clears every player's 13 trick-win flags and zeroes both teams'
round bags and points. -/
def Scoring.betting_over (s : Scoring) : Scoring :=
  let t0 := { s.team.getD 0 TeamState.default with game_bags := 0, game_points := 0 }
  let t1 := { s.team.getD 1 TeamState.default with game_bags := 0, game_points := 0 }
  { s with
    trick := 0
    in_betting_stage := false
    players := s.players.map (fun _p => PlayerState.default)
    team := (s.team.set 0 t0).set 1 t1 }

/-- `Scoring::trick` (named trick_step here because `trick` is the counter
field): records the trick winner's flag, and on the 13th trick settles both
teams, checks game over and re-enters the betting stage. Returns the
updated scoring and the winner index. -/
def Scoring.trick_step (s : Scoring) (starting_player_index : Nat) (cards : List Card) :
    Scoring × Nat :=
  let winner := get_trick_winner starting_player_index cards
  let ps := s.players.getD winner PlayerState.default
  let s := { s with players := s.players.set winner ⟨ps.won_trick.set s.trick true⟩ }
  if s.trick = 12 then
    let t0 := (s.team.getD 0 TeamState.default).calculate_round_totals
      (s.bets_placed.getD 0 (Bet.Amount 0)) (s.players.getD 0 PlayerState.default)
      (s.bets_placed.getD 2 (Bet.Amount 0)) (s.players.getD 2 PlayerState.default)
    let t1 := (s.team.getD 1 TeamState.default).calculate_round_totals
      (s.bets_placed.getD 1 (Bet.Amount 0)) (s.players.getD 1 PlayerState.default)
      (s.bets_placed.getD 3 (Bet.Amount 0)) (s.players.getD 3 PlayerState.default)
    let s := { s with team := (s.team.set 0 t0).set 1 t1 }
    let s :=
      if s.config.max_points ≤ t0.cumulative_points ∨
          s.config.max_points ≤ t1.cumulative_points then
        { s with is_over := true }
      else s
    ({ s with in_betting_stage := true, round := s.round + 1 }, winner)
  else
    ({ s with trick := s.trick + 1 }, winner)

/-- The 52-card deck in the construction order of `new_deck` in
src/cards.rs: suits outer (Clubs, Diamonds, Hearts, Spades), ranks inner
(Two .. Ace). -/
def orderedDeck : List Card :=
  [Suit.Clubs, Suit.Diamonds, Suit.Hearts, Suit.Spades].flatMap (fun s =>
    [Rank.Two, Rank.Three, Rank.Four, Rank.Five, Rank.Six, Rank.Seven, Rank.Eight,
     Rank.Nine, Rank.Ten, Rank.Jack, Rank.Queen, Rank.King, Rank.Ace].map
      (fun r => ⟨s, r⟩))

/-- `new_deck()` from src/cards.rs: builds the ordered deck then shuffles.
The thread_rng shuffle is the injected permutation σ. -/
def new_deck (σ : List Card → List Card) : List Card :=
  σ orderedDeck

/-- The `while let Some(card) = cards.pop()` loop of deal_four_players:
cards popped from the back of the deck are dealt round-robin into the four
hands.  The argument list is the deck already reversed (pop order). -/
def dealLoop : List Card → Nat → List (List Card) → List (List Card)
  | [], _, hands => hands
  | c :: rest, i, hands =>
    dealLoop rest ((i + 1) % 4) (hands.set i ((hands.getD i []) ++ [c]))

/-- `deal_four_players` from src/cards.rs: shuffles (σ) and deals the whole
deck into four hands, leaving the deck empty (the caller clears it). -/
def deal_four_players (σ : List Card → List Card) (deck : List Card) :
    List (List Card) :=
  dealLoop (σ deck).reverse 0 [[], [], [], []]

/-- Insertion into a sorted list under the Card Ord key (helper for
sortHand). -/
def insertCard (c : Card) : List Card → List Card
  | [] => [c]
  | x :: xs => if cardKey c ≤ cardKey x then c :: x :: xs else x :: insertCard c xs

/-- `hand.sort()` under the Card Ord instance (suit-major key), modelled as
insertion sort: it produces the same sorted permutation of the hand as the
standard library sort the source calls. -/
def sortHand : List Card → List Card
  | [] => []
  | c :: cs => insertCard c (sortHand cs)

/-- Game struct from src/lib.rs. -/
structure Game where
  id : Nat
  state : State
  scoring : Scoring
  current_player_index : Nat
  deck : List Card
  current_trick : List Card
  bets_placed : List Bet
  leading_suit : Option Suit
  spades_broken : Bool
  player : List Player
deriving DecidableEq, Repr

/-- `Game::deal_cards`: deals the deck into four hands (emptying the deck);
the four `hands.pop()` calls give player 0 the last hand and so on; each
hand is then sorted.  Note: the players' seen_hand flags are not touched. -/
def Game.deal_cards (σ : List Card → List Card) (g : Game) : Game :=
  let hands := deal_four_players σ g.deck
  let g := { g with deck := [] }
  let p0 := { g.player.getD 0 defaultPlayer with hand := sortHand (hands.getD 3 []) }
  let g := { g with player := g.player.set 0 p0 }
  let p1 := { g.player.getD 1 defaultPlayer with hand := sortHand (hands.getD 2 []) }
  let g := { g with player := g.player.set 1 p1 }
  let p2 := { g.player.getD 2 defaultPlayer with hand := sortHand (hands.getD 1 []) }
  let g := { g with player := g.player.set 2 p2 }
  let p3 := { g.player.getD 3 defaultPlayer with hand := sortHand (hands.getD 0 []) }
  { g with player := g.player.set 3 p3 }

/-- `Game::new`. -/
def Game.new (σ : List Card → List Card) (id : Nat) (player_ids : List Nat)
    (max_points : Int) : Game :=
  { id := id
    state := State.GameNotStarted
    scoring := Scoring.new max_points
    current_trick := []
    bets_placed := List.replicate 4 (Bet.Amount 0)
    deck := new_deck σ
    current_player_index := 0
    leading_suit := none
    spades_broken := false
    player := [Player.new (player_ids.getD 0 0), Player.new (player_ids.getD 1 0),
               Player.new (player_ids.getD 2 0), Player.new (player_ids.getD 3 0)] }

/-- `Game::winner_ids`: in GameCompleted, compares the two teams'
cumulative points and returns the ids of players 0 and 2 when team 0's
points are at most team 1's, and those of players 1 and 3 otherwise; in any
other state it returns GameNotCompleted. -/
def Game.winner_ids (g : Game) : Except SpadesError (Nat × Nat) :=
  match g.state with
  | State.GameCompleted =>
    if (g.scoring.team.getD 0 TeamState.default).cumulative_points ≤
        (g.scoring.team.getD 1 TeamState.default).cumulative_points then
      Except.ok ((g.player.getD 0 defaultPlayer).id, (g.player.getD 2 defaultPlayer).id)
    else
      Except.ok ((g.player.getD 1 defaultPlayer).id, (g.player.getD 3 defaultPlayer).id)
  | _ => Except.error SpadesError.GameNotCompleted

/-- `Game::bets_placed` (the query): always Ok with the game's own
bets_placed array. -/
def Game.bets_placed_query (g : Game) : Except SpadesError (List Bet) :=
  Except.ok g.bets_placed

/-- `Game::current_hand`: marks the current player's hand as seen and
returns it (in Betting or Trick states). -/
def Game.current_hand (g : Game) : Game × Except SpadesError (List Card) :=
  match g.state with
  | State.GameNotStarted => (g, Except.error SpadesError.GameNotStarted)
  | State.GameCompleted => (g, Except.error SpadesError.GameCompleted)
  | _ =>
    let p := g.player.getD g.current_player_index defaultPlayer
    ({ g with player := g.player.set g.current_player_index { p with seen_hand := true } },
     Except.ok p.hand)

/-- `Game::can_start_game`. -/
def Game.can_start_game (g : Game) : Option SpadesError :=
  if g.state = State.GameNotStarted then none
  else some SpadesError.ImproperGameStage

/-- `Game::execute_game_start`. -/
def Game.execute_game_start (σ : List Card → List Card) (g : Game) : Game :=
  let g := { g with spades_broken := false }
  let g := g.deal_cards σ
  { g with state := State.Betting 0 }

/-- `Game::start_game`: no-op unless the game has not started. -/
def Game.start_game (σ : List Card → List Card) (g : Game) : Game :=
  match g.can_start_game with
  | some _ => g
  | none => g.execute_game_start σ

/-- `Game::can_place_bet`. -/
def Game.can_place_bet (g : Game) (bet : Bet) : Option SpadesError :=
  match g.state with
  | State.GameNotStarted => some SpadesError.GameNotStarted
  | State.Trick _ => some SpadesError.ImproperGameStage
  | State.GameCompleted => some SpadesError.GameCompleted
  | State.Betting _ =>
    if bet = Bet.BlindNil ∧
        (g.player.getD g.current_player_index defaultPlayer).seen_hand = true then
      some SpadesError.BetImproperSeenHand
    else none

/-- `Game::execute_bet`. -/
def Game.execute_bet (g : Game) (rotation_status : Nat) (bet : Bet) : Game × BetResult :=
  let g := { g with scoring := g.scoring.add_bet g.current_player_index bet }
  if rotation_status = 3 then
    let g := { g with scoring := g.scoring.betting_over }
    let g := { g with
                state := State.Trick ((rotation_status + 1) % 4)
                current_player_index := 0 }
    (g, BetResult.CompletedBetting)
  else
    let g := { g with
                current_player_index := (g.current_player_index + 1) % 4
                state := State.Betting ((rotation_status + 1) % 4) }
    (g, BetResult.MadeBet)

/-- `Game::place_bet`: no-op with none when the bet is not allowed. -/
def Game.place_bet (g : Game) (bet : Bet) : Game × Option BetResult :=
  match g.can_place_bet bet with
  | some _ => (g, none)
  | none =>
    match g.state with
    | State.Betting rotation_status =>
      let r := g.execute_bet rotation_status bet
      (r.1, some r.2)
    | _ => (g, none)

/-- `Game::can_play_card_from_hand`, transcribed with the early returns
flattened into an if-chain: card must be in hand; a spade may lead (rotation
0) only if spades are broken or the hand is all spades; and with a leading
suit established a card of another suit is legal only when the hand has no
card of the leading suit. -/
def Game.can_play_card_from_hand (g : Game) (rotation_status : Nat) (card : Card)
    (hand : List Card) : Option SpadesError :=
  if ¬ card ∈ hand then some SpadesError.CardNotInHand
  else if rotation_status = 0 ∧ card.suit = Suit.Spades ∧
      ¬ (g.spades_broken = true ∨ ¬ (∃ c ∈ hand, c.suit ≠ Suit.Spades)) then
    some SpadesError.CardIncorrectSuit
  else if g.leading_suit ≠ some card.suit ∧ (∃ x ∈ hand, some x.suit = g.leading_suit) then
    some SpadesError.CardIncorrectSuit
  else none

/-- `Game::can_play_card`. -/
def Game.can_play_card (g : Game) (card : Card) : Option SpadesError :=
  match g.state with
  | State.GameNotStarted => some SpadesError.GameNotStarted
  | State.GameCompleted => some SpadesError.GameCompleted
  | State.Betting _ => some SpadesError.ImproperGameStage
  | State.Trick rotation_status =>
    g.can_play_card_from_hand rotation_status card
      (g.player.getD g.current_player_index defaultPlayer).hand

/-- `Game::execute_play_card`: breaks spades if a spade was played, appends
the card to the current trick; on the trick's fourth card resolves the
winner, and either completes the game, re-enters betting with a fresh deal,
or hands the lead to the winner. -/
def Game.execute_play_card (σ : List Card → List Card) (g : Game)
    (rotation_status : Nat) (card : Card) : Game × PlayCardResult :=
  let g := if card.suit = Suit.Spades then { g with spades_broken := true } else g
  let g := { g with current_trick := g.current_trick ++ [card] }
  if rotation_status = 3 then
    let sw := g.scoring.trick_step ((g.current_player_index + 1) % 4) g.current_trick
    let g := { g with
                scoring := sw.1
                current_trick := []
                leading_suit := none }
    if sw.1.is_over then
      ({ g with state := State.GameCompleted }, PlayCardResult.GameCompleted)
    else if sw.1.in_betting_stage then
      let g := { g with
                  current_player_index := 0
                  spades_broken := false
                  bets_placed := List.replicate 4 (Bet.Amount 0)
                  state := State.Betting 0 }
      (g.deal_cards σ, PlayCardResult.TrickCompleted)
    else
      let g := { g with
                  current_player_index := sw.2
                  state := State.Trick ((rotation_status + 1) % 4) }
      (g, PlayCardResult.TrickCompleted)
  else
    let g := { g with
                current_player_index := (g.current_player_index + 1) % 4
                state := State.Trick ((rotation_status + 1) % 4) }
    (g, PlayCardResult.CardPlayed)

/-- `Game::play_card`: no-op with none when the card cannot be played; on
success records the leading suit for the trick's first card, moves the card
from the hand to the deck (discard pile) and runs execute_play_card. -/
def Game.play_card (σ : List Card → List Card) (g : Game) (card : Card) :
    Game × Option PlayCardResult :=
  match g.can_play_card card with
  | some _ => (g, none)
  | none =>
    match g.state with
    | State.Trick rotation_status =>
      let g := if rotation_status = 0 then { g with leading_suit := some card.suit } else g
      let p := g.player.getD g.current_player_index defaultPlayer
      let g := { g with
                  player := g.player.set g.current_player_index
                    { p with hand := p.hand.erase card }
                  deck := g.deck ++ [card] }
      let r := g.execute_play_card σ rotation_status card
      (r.1, some r.2)
    | _ => (g, none)

/-- Concrete completed game used to evaluate winner_ids: team 0 (players 10
and 12) has 500 cumulative points, team 1 (players 11 and 13) has 100. -/
def completedGame : Game :=
  { id := 0
    state := State.GameCompleted
    scoring := { Scoring.mkDefault with team := [⟨0, 0, 0, 0, 500⟩, ⟨0, 0, 0, 0, 100⟩] }
    current_player_index := 0
    deck := []
    current_trick := []
    bets_placed := List.replicate 4 (Bet.Amount 0)
    leading_suit := none
    spades_broken := false
    player := [Player.new 10, Player.new 11, Player.new 12, Player.new 13] }

/-- C1: at a completed game where team 0 (players 10 and 12) holds strictly
more cumulative points (500) than team 1 (players 11 and 13, 100 points),
winner_ids returns the ids of players 1 and 3 - the LOSING team - because
the comparison branches of Game::winner_ids are swapped, contradicting the
function's own doc comment ("the players on the team that won this game"). -/
theorem winner_ids_returns_losing_team :
    completedGame.winner_ids = Except.ok (11, 13) ∧
    (completedGame.scoring.team.getD 1 TeamState.default).cumulative_points <
      (completedGame.scoring.team.getD 0 TeamState.default).cumulative_points := by
  exact ⟨rfl, by decide⟩

/-- C6: in a Trick state with a leading suit established, playing a card of
a different suit while holding a card of the leading suit is a pure no-op
(play_card returns the state unchanged with none) and can_play_card reports
CardIncorrectSuit. -/
theorem play_card_incorrect_suit_no_mutation (σ : List Card → List Card) (g : Game)
    (card : Card) (rs : Nat) (s : Suit)
    (hstate : g.state = State.Trick rs)
    (hlead : g.leading_suit = some s)
    (hdiff : card.suit ≠ s)
    (hmem : card ∈ (g.player.getD g.current_player_index defaultPlayer).hand)
    (hfollow : ∃ c ∈ (g.player.getD g.current_player_index defaultPlayer).hand,
      c.suit = s) :
    g.play_card σ card = (g, none) ∧
    g.can_play_card card = some SpadesError.CardIncorrectSuit := by
  have hcan : g.can_play_card card = some SpadesError.CardIncorrectSuit := by
    simp only [Game.can_play_card, hstate, Game.can_play_card_from_hand]
    rw [if_neg (not_not_intro hmem)]
    by_cases h2 : rs = 0 ∧ card.suit = Suit.Spades ∧
        ¬ (g.spades_broken = true ∨
          ¬ ∃ c ∈ (g.player.getD g.current_player_index defaultPlayer).hand,
            c.suit ≠ Suit.Spades)
    · rw [if_pos h2]
    · rw [if_neg h2, if_pos ?_]
      refine ⟨?_, ?_⟩
      · rw [hlead]
        intro hcon
        exact hdiff (Option.some.inj hcon).symm
      · obtain ⟨c, hc, hcs⟩ := hfollow
        exact ⟨c, hc, by rw [hlead, hcs]⟩
  refine ⟨?_, hcan⟩
  simp only [Game.play_card, hcan]

/-- Concrete game for the C6 witness: player 0 to act in Trick 1, clubs led,
holding the jack of diamonds and the queen of clubs. -/
def followSuitGame : Game :=
  { id := 0
    state := State.Trick 1
    scoring := Scoring.mkDefault
    current_player_index := 0
    deck := []
    current_trick := [cardQC]
    bets_placed := List.replicate 4 (Bet.Amount 0)
    leading_suit := some Suit.Clubs
    spades_broken := false
    player := [{ Player.new 10 with hand := [cardJD, cardQC] }, Player.new 11,
               Player.new 12, Player.new 13] }

/-- Witness for C6: playing the jack of diamonds while clubs are led and the
queen of clubs is in hand mutates nothing and yields CardIncorrectSuit. -/
theorem play_card_incorrect_suit_no_mutation_witness :
    (followSuitGame.state = State.Trick 1 ∧
     followSuitGame.leading_suit = some Suit.Clubs ∧
     cardJD.suit ≠ Suit.Clubs ∧
     cardJD ∈ (followSuitGame.player.getD followSuitGame.current_player_index
       defaultPlayer).hand ∧
     (∃ c ∈ (followSuitGame.player.getD followSuitGame.current_player_index
       defaultPlayer).hand, c.suit = Suit.Clubs)) ∧
    (followSuitGame.play_card id cardJD = (followSuitGame, none) ∧
     followSuitGame.can_play_card cardJD = some SpadesError.CardIncorrectSuit) :=
  ⟨⟨by decide, by decide, by decide, by decide, by decide⟩,
   play_card_incorrect_suit_no_mutation id followSuitGame cardJD 1 Suit.Clubs
     (by decide) (by decide) (by decide) (by decide) (by decide)⟩

/-- A game at the start of a later round's betting stage whose player 0
viewed their hand in an earlier round (seen_hand still true), with a full
deck about to be redealt. -/
def secondRoundGame : Game :=
  { id := 0
    state := State.Betting 0
    scoring := Scoring.mkDefault
    current_player_index := 0
    deck := orderedDeck
    current_trick := []
    bets_placed := List.replicate 4 (Bet.Amount 0)
    leading_suit := none
    spades_broken := false
    player := [{ Player.new 10 with seen_hand := true }, Player.new 11,
               Player.new 12, Player.new 13] }

/-- C7: Game::deal_cards never touches the players' seen_hand flags (it only
replaces and sorts their hands), so the flag set by viewing a hand in an
earlier round persists through every later deal, and a BlindNil bet by that
player is still rejected with BetImproperSeenHand in the later round -
contrary to the spec's "reset at each new deal" and to the doc comment of
current_hand, which scopes the restriction to "that round". -/
theorem deal_cards_preserves_seen_hand :
    ((secondRoundGame.deal_cards id).player.map Player.seen_hand
      = secondRoundGame.player.map Player.seen_hand) ∧
    ((secondRoundGame.deal_cards id).player.getD 0 defaultPlayer).seen_hand = true ∧
    (secondRoundGame.deal_cards id).state = State.Betting 0 ∧
    (secondRoundGame.deal_cards id).can_place_bet Bet.BlindNil
      = some SpadesError.BetImproperSeenHand := by
  refine ⟨by decide, by decide, by decide, by decide⟩

/-- C9: leading (rotation 0) a Spade before spades are broken is rejected
with CardIncorrectSuit when the hand holds any non-Spade, and accepted when
the hand is all Spades. -/
theorem lead_spade_rules (g : Game) (card : Card)
    (hstate : g.state = State.Trick 0)
    (hbroken : g.spades_broken = false)
    (hspade : card.suit = Suit.Spades)
    (hmem : card ∈ (g.player.getD g.current_player_index defaultPlayer).hand) :
    ((∃ c ∈ (g.player.getD g.current_player_index defaultPlayer).hand,
        c.suit ≠ Suit.Spades) →
      g.can_play_card card = some SpadesError.CardIncorrectSuit) ∧
    ((∀ c ∈ (g.player.getD g.current_player_index defaultPlayer).hand,
        c.suit = Suit.Spades) →
      g.can_play_card card = none) := by
  constructor
  · intro hex
    simp only [Game.can_play_card, hstate, Game.can_play_card_from_hand]
    rw [if_neg (not_not_intro hmem), if_pos ?_]
    refine ⟨trivial, hspade, ?_⟩
    rw [hbroken]
    simp only [Bool.false_eq_true, false_or, not_not]
    exact hex
  · intro hall
    simp only [Game.can_play_card, hstate, Game.can_play_card_from_hand]
    rw [if_neg (not_not_intro hmem), if_neg ?_, if_neg ?_]
    · rintro ⟨hne, x, hx, hxs⟩
      exact hne (by rw [← hxs, hall x hx, hspade])
    · rintro ⟨-, -, hcon⟩
      refine hcon (Or.inr ?_)
      rintro ⟨c, hc, hcs⟩
      exact hcs (hall c hc)

/-- Concrete game for the C9 witness: player 0 leads in Trick 0, spades not
broken, holding only spades (jack and king). -/
def allSpadesGame : Game :=
  { id := 0
    state := State.Trick 0
    scoring := Scoring.mkDefault
    current_player_index := 0
    deck := []
    current_trick := []
    bets_placed := List.replicate 4 (Bet.Amount 0)
    leading_suit := none
    spades_broken := false
    player := [{ Player.new 10 with hand := [card3S, cardKS] }, Player.new 11,
               Player.new 12, Player.new 13] }

/-- Witness for C9 at a hand holding only spades: leading the king of spades
is accepted even though spades were never broken. -/
theorem lead_spade_rules_witness :
    (allSpadesGame.state = State.Trick 0 ∧
     allSpadesGame.spades_broken = false ∧
     cardKS.suit = Suit.Spades ∧
     cardKS ∈ (allSpadesGame.player.getD allSpadesGame.current_player_index
       defaultPlayer).hand) ∧
    (((∃ c ∈ (allSpadesGame.player.getD allSpadesGame.current_player_index
        defaultPlayer).hand, c.suit ≠ Suit.Spades) →
      allSpadesGame.can_play_card cardKS = some SpadesError.CardIncorrectSuit) ∧
    ((∀ c ∈ (allSpadesGame.player.getD allSpadesGame.current_player_index
        defaultPlayer).hand, c.suit = Suit.Spades) →
      allSpadesGame.can_play_card cardKS = none)) :=
  ⟨⟨by decide, by decide, by decide, by decide⟩,
   lead_spade_rules allSpadesGame cardKS (by decide) (by decide) (by decide) (by decide)⟩

/-- bets_placed of the game is untouched by dealing. -/
theorem deal_cards_bets_placed (σ : List Card → List Card) (g : Game) :
    (g.deal_cards σ).bets_placed = g.bets_placed :=
  rfl

/-- C10: the bets_placed query returns Ok in every state; place_bet,
start_game and current_hand never change the game's bets_placed array (a
successful bet is recorded only in the scoring component's own array);
play_card either leaves the array unchanged or resets it to four Amount(0)
entries at the round boundary. -/
theorem bets_placed_frame (σ : List Card → List Card) (g : Game) (b : Bet) (c : Card) :
    g.bets_placed_query = Except.ok g.bets_placed ∧
    (g.place_bet b).1.bets_placed = g.bets_placed ∧
    (g.start_game σ).bets_placed = g.bets_placed ∧
    (g.current_hand).1.bets_placed = g.bets_placed ∧
    ((g.play_card σ c).1.bets_placed = g.bets_placed ∨
      (g.play_card σ c).1.bets_placed = List.replicate 4 (Bet.Amount 0)) ∧
    (∀ rs, g.state = State.Betting rs → g.can_place_bet b = none →
      (g.place_bet b).1.scoring.bets_placed
        = g.scoring.bets_placed.set g.current_player_index b) := by
  refine ⟨rfl, ?_, ?_, ?_, ?_, ?_⟩
  · rcases hcp : g.can_place_bet b with - | e
    · simp only [Game.place_bet, hcp]
      rcases hst : g.state with - | rs | rs | - <;>
        first
          | rfl
          | (simp only [Game.execute_bet]
             split_ifs <;> rfl)
    · simp only [Game.place_bet, hcp]
  · unfold Game.start_game Game.can_start_game
    split_ifs with h
    · exact deal_cards_bets_placed σ _
    · rfl
  · unfold Game.current_hand
    rcases hst : g.state <;> rfl
  · rcases hcp : g.can_play_card c with - | e
    · simp only [Game.play_card, hcp]
      rcases hst : g.state with - | rs | rs | - <;>
        first
          | exact Or.inl rfl
          | (simp only [Game.execute_play_card]
             split_ifs <;>
               first
                 | exact Or.inl rfl
                 | exact Or.inr (deal_cards_bets_placed σ _))
    · exact Or.inl (by simp only [Game.play_card, hcp])
  · intro rs hst hcp
    simp only [Game.place_bet, hcp, hst, Game.execute_bet, Scoring.add_bet]
    split_ifs <;> rfl

/-- Witness for C10 at a concrete betting-stage game and an Amount(3) bet. -/
theorem bets_placed_frame_witness :
    secondRoundGame.bets_placed_query = Except.ok secondRoundGame.bets_placed ∧
    (secondRoundGame.place_bet (Bet.Amount 3)).1.bets_placed
      = secondRoundGame.bets_placed ∧
    (secondRoundGame.start_game id).bets_placed = secondRoundGame.bets_placed ∧
    (secondRoundGame.current_hand).1.bets_placed = secondRoundGame.bets_placed ∧
    ((secondRoundGame.play_card id cardKS).1.bets_placed
        = secondRoundGame.bets_placed ∨
      (secondRoundGame.play_card id cardKS).1.bets_placed
        = List.replicate 4 (Bet.Amount 0)) ∧
    (∀ rs, secondRoundGame.state = State.Betting rs →
      secondRoundGame.can_place_bet (Bet.Amount 3) = none →
      (secondRoundGame.place_bet (Bet.Amount 3)).1.scoring.bets_placed
        = secondRoundGame.scoring.bets_placed.set
            secondRoundGame.current_player_index (Bet.Amount 3)) :=
  bets_placed_frame id secondRoundGame (Bet.Amount 3) cardKS

/-! ## Card conservation across the game (C8 infrastructure) -/

theorem insertCard_perm (c : Card) (l : List Card) :
    (insertCard c l).Perm (c :: l) := by
  induction l with
  | nil => exact List.Perm.refl _
  | cons x xs ih =>
    simp only [insertCard]
    split_ifs
    · exact List.Perm.refl _
    · exact ((ih.cons x).trans (List.Perm.swap c x xs)).symm.symm

theorem sortHand_perm (l : List Card) : (sortHand l).Perm l := by
  induction l with
  | nil => exact List.Perm.refl _
  | cons c cs ih =>
    exact (insertCard_perm c (sortHand cs)).trans (ih.cons c)

theorem dealLoop_length (cs : List Card) : ∀ (i : Nat) (hs : List (List Card)),
    (dealLoop cs i hs).length = hs.length := by
  induction cs with
  | nil => intro i hs; rfl
  | cons c rest ih =>
    intro i hs
    simp only [dealLoop, ih, List.length_set]

theorem flatten_set_append (c : Card) : ∀ (hs : List (List Card)) (i : Nat),
    i < hs.length →
    ((hs.set i ((hs.getD i []) ++ [c])).flatten).Perm (hs.flatten ++ [c]) := by
  intro hs
  induction hs with
  | nil => intro i hi; simp at hi
  | cons h rest ih =>
    intro i hi
    cases i with
    | zero =>
      simp only [List.set, List.getD, List.flatten_cons, List.getElem?_cons_zero,
        Option.getD_some]
      rw [List.append_assoc, List.append_assoc]
      exact List.Perm.append_left h List.perm_append_comm
    | succ j =>
      simp only [List.set, List.flatten_cons, List.getD_cons_succ]
      rw [List.append_assoc]
      exact List.Perm.append_left h (ih j (by simpa using hi))

theorem dealLoop_flatten_perm (cs : List Card) : ∀ (i : Nat) (hs : List (List Card)),
    hs.length = 4 → i < 4 →
    ((dealLoop cs i hs).flatten).Perm (hs.flatten ++ cs) := by
  induction cs with
  | nil => intro i hs hlen hi; simp [dealLoop]
  | cons c rest ih =>
    intro i hs hlen hi
    simp only [dealLoop]
    have hlen2 : (hs.set i ((hs.getD i []) ++ [c])).length = 4 := by
      simpa using hlen
    have step := ih ((i + 1) % 4) (hs.set i ((hs.getD i []) ++ [c])) hlen2
      (Nat.mod_lt _ (by omega))
    refine step.trans ?_
    have hflat := flatten_set_append c hs i (by omega)
    refine (hflat.append_right rest).trans ?_
    rw [List.append_assoc]
    exact List.Perm.append_left _ (List.Perm.refl _)

/-- All cards currently held in the four hands, in seat order. -/
def handsCards (g : Game) : List Card :=
  (g.player.map Player.hand).flatten

/-- Reachable games: a freshly constructed game, closed under the three
public actions.  Every injected shuffle σ must be a permutation, which is
the contract of the thread_rng shuffle the source uses. -/
inductive Reachable : Game → Prop
  | init (σ : List Card → List Card) (hσ : ∀ l : List Card, (σ l).Perm l)
      (id : Nat) (pids : List Nat) (max_points : Int) :
      Reachable (Game.new σ id pids max_points)
  | start (σ : List Card → List Card) (hσ : ∀ l : List Card, (σ l).Perm l)
      (g : Game) : Reachable g → Reachable (g.start_game σ)
  | bet (b : Bet) (g : Game) : Reachable g → Reachable (g.place_bet b).1
  | play (σ : List Card → List Card) (hσ : ∀ l : List Card, (σ l).Perm l)
      (c : Card) (g : Game) : Reachable g → Reachable (g.play_card σ c).1

/-- The stage-dependent structural facts that make the card-conservation
induction go through: hands are empty before the start, full (52 cards)
during betting, and shrink by exactly one card per play during tricks,
while the current trick holds exactly the rotation counter's cards. -/
def StageInv (g : Game) : Prop :=
  match g.state with
  | State.GameNotStarted => g.current_trick = [] ∧ handsCards g = []
  | State.Betting _ => g.current_trick = [] ∧ (handsCards g).length = 52
  | State.Trick rs =>
      rs ≤ 3 ∧ g.scoring.trick ≤ 12 ∧ g.scoring.in_betting_stage = false ∧
      g.current_trick.length = rs ∧
      (handsCards g).length + 4 * g.scoring.trick + rs = 52
  | State.GameCompleted => True

/-- The card-conservation invariant: four players, a seat cursor in range,
deck plus hands a permutation of the 52-card deck, every trick card
duplicated in the deck, and the stage bookkeeping of StageInv. -/
def CardConservation (g : Game) : Prop :=
  g.player.length = 4 ∧
  g.current_player_index < 4 ∧
  (g.deck ++ handsCards g).Perm orderedDeck ∧
  (∀ c ∈ g.current_trick, c ∈ g.deck) ∧
  StageInv g

theorem exists_four {α : Type} : ∀ (l : List α), l.length = 4 →
    ∃ a b c d, l = [a, b, c, d]
  | [a, b, c, d], _ => ⟨a, b, c, d, rfl⟩
  | [], h => absurd h (by simp)
  | [_], h => absurd h (by simp)
  | [_, _], h => absurd h (by simp)
  | [_, _, _], h => absurd h (by simp)
  | _ :: _ :: _ :: _ :: _ :: _, h => absurd h (by simp)

/-- Removing one held card from the current player's hand removes exactly
that card from the combined hands (stated as a multiset equation), and it
shrinks the combined hand count by one. -/
theorem hands_set_erase (pl : List Player) (i : Nat) (card : Card)
    (hlen : pl.length = 4) (hi : i < 4)
    (hmem : card ∈ (pl.getD i defaultPlayer).hand) :
    ((((pl.set i { pl.getD i defaultPlayer with
          hand := (pl.getD i defaultPlayer).hand.erase card }).map Player.hand).flatten :
        Multiset Card) + {card}
      = (((pl.map Player.hand).flatten : List Card) : Multiset Card)) ∧
    ((pl.set i { pl.getD i defaultPlayer with
        hand := (pl.getD i defaultPlayer).hand.erase card }).map Player.hand).flatten.length
        + 1 = ((pl.map Player.hand).flatten).length ∧
    (pl.set i { pl.getD i defaultPlayer with
        hand := (pl.getD i defaultPlayer).hand.erase card }).length = 4 := by
  obtain ⟨p0, p1, p2, p3, rfl⟩ := exists_four pl hlen
  have key : ∀ (pre post h : List Card), card ∈ h →
      (((pre ++ (h.erase card ++ post)) : Multiset Card) + {card}
        = ((pre ++ (h ++ post) : List Card) : Multiset Card)) ∧
      (pre ++ (h.erase card ++ post)).length + 1 = (pre ++ (h ++ post)).length := by
    intro pre post h hc
    constructor
    · have he := Multiset.coe_eq_coe.mpr (List.perm_cons_erase hc)
      simp only [← Multiset.cons_coe, ← Multiset.singleton_add, ← Multiset.coe_add] at he ⊢
      rw [he]
      abel
    · have := List.length_erase_of_mem hc
      have hpos : 0 < h.length := List.length_pos_of_mem hc
      simp only [List.length_append]
      omega
  interval_cases i
  · have h := key [] (p1.hand ++ (p2.hand ++ (p3.hand ++ []))) p0.hand (by simpa using hmem)
    refine ⟨?_, ?_, rfl⟩
    · simpa using h.1
    · simpa using h.2
  · have h := key p0.hand (p2.hand ++ (p3.hand ++ [])) p1.hand (by simpa using hmem)
    refine ⟨?_, ?_, rfl⟩
    · simpa using h.1
    · simpa using h.2
  · have h := key (p0.hand ++ p1.hand) (p3.hand ++ []) p2.hand (by simpa using hmem)
    refine ⟨?_, ?_, rfl⟩
    · simpa [List.append_assoc] using h.1
    · simpa [List.append_assoc] using h.2
  · have h := key (p0.hand ++ (p1.hand ++ p2.hand)) [] p3.hand (by simpa using hmem)
    refine ⟨?_, ?_, rfl⟩
    · simpa [List.append_assoc] using h.1
    · simpa [List.append_assoc] using h.2

/-- What Game::deal_cards does, for a four-player game: it empties the deck
into four sorted hands (a permutation of the old deck when the shuffle is a
permutation) and changes nothing else. -/
theorem deal_cards_spec (σ : List Card → List Card)
    (hσ : ∀ l : List Card, (σ l).Perm l) (g : Game) (hp : g.player.length = 4) :
    (g.deal_cards σ).deck = [] ∧
    (g.deal_cards σ).player.length = 4 ∧
    (handsCards (g.deal_cards σ)).Perm g.deck ∧
    (g.deal_cards σ).state = g.state ∧
    (g.deal_cards σ).current_trick = g.current_trick ∧
    (g.deal_cards σ).current_player_index = g.current_player_index ∧
    (g.deal_cards σ).scoring = g.scoring := by
  obtain ⟨p0, p1, p2, p3, hpl⟩ := exists_four g.player hp
  obtain ⟨h0, h1, h2, h3, hh⟩ := exists_four (deal_four_players σ g.deck)
    (by unfold deal_four_players; rw [dealLoop_length]; rfl)
  have hflat : ((deal_four_players σ g.deck).flatten).Perm g.deck := by
    refine (dealLoop_flatten_perm (σ g.deck).reverse 0 [[], [], [], []] rfl
      (by omega)).trans ?_
    simp only [List.flatten, List.nil_append]
    exact (List.reverse_perm (σ g.deck)).trans (hσ g.deck)
  have hhands : handsCards (g.deal_cards σ)
      = sortHand h3 ++ (sortHand h2 ++ (sortHand h1 ++ (sortHand h0 ++ []))) := by
    simp [Game.deal_cards, handsCards, hpl, hh]
  refine ⟨?_, ?_, ?_, ?_, ?_, ?_, ?_⟩
  · simp [Game.deal_cards, hpl]
  · simp [Game.deal_cards, hpl]
  · rw [hhands]
    have hs0 := sortHand_perm h0
    have hs1 := sortHand_perm h1
    have hs2 := sortHand_perm h2
    have hs3 := sortHand_perm h3
    refine List.Perm.trans ?_ hflat
    rw [hh]
    simp only [List.flatten]
    rw [← Multiset.coe_eq_coe]
    have e0 := Multiset.coe_eq_coe.mpr hs0
    have e1 := Multiset.coe_eq_coe.mpr hs1
    have e2 := Multiset.coe_eq_coe.mpr hs2
    have e3 := Multiset.coe_eq_coe.mpr hs3
    simp only [← Multiset.coe_add] at e0 e1 e2 e3 ⊢
    rw [e0, e1, e2, e3]
    abel
  · simp [Game.deal_cards, hpl]
  · simp [Game.deal_cards, hpl]
  · simp [Game.deal_cards, hpl]
  · simp [Game.deal_cards, hpl]

theorem orderedDeck_length : orderedDeck.length = 52 := by
  decide

theorem get_trick_winner_lt (i : Nat) (l : List Card) : get_trick_winner i l < 4 := by
  unfold get_trick_winner
  exact Nat.mod_lt _ (by omega)

theorem trick_step_proj (s : Scoring) (sp : Nat) (cards : List Card) :
    (s.trick_step sp cards).2 < 4 ∧
    (s.trick_step sp cards).1.in_betting_stage
      = (if s.trick = 12 then true else s.in_betting_stage) ∧
    (s.trick_step sp cards).1.trick = (if s.trick = 12 then s.trick else s.trick + 1) := by
  simp only [Scoring.trick_step]
  split_ifs with h12 h13
  all_goals exact ⟨get_trick_winner_lt sp cards, rfl, rfl⟩

theorem cardConservation_new (σ : List Card → List Card)
    (hσ : ∀ l : List Card, (σ l).Perm l) (id : Nat) (pids : List Nat) (max_points : Int) :
    CardConservation (Game.new σ id pids max_points) := by
  refine ⟨rfl, by show (0 : Nat) < 4; omega, ?_, by simp [Game.new], ⟨rfl, rfl⟩⟩
  have hh : handsCards (Game.new σ id pids max_points) = [] := rfl
  rw [hh, List.append_nil]
  exact hσ orderedDeck

theorem cardConservation_start (σ : List Card → List Card)
    (hσ : ∀ l : List Card, (σ l).Perm l) (g : Game) (h : CardConservation g) :
    CardConservation (g.start_game σ) := by
  obtain ⟨hp, hq, hperm, htd, hst⟩ := h
  by_cases hns : g.state = State.GameNotStarted
  · obtain ⟨htr, hhe⟩ : g.current_trick = [] ∧ handsCards g = [] := by
      unfold StageInv at hst
      rw [hns] at hst
      exact hst
    obtain ⟨hd0, hd4, hdperm0, hdstate, hdtrick0, hdcpi0, hdsc⟩ :=
      deal_cards_spec σ hσ { g with spades_broken := false } hp
    have hdeckperm : g.deck.Perm orderedDeck := by
      rw [hhe, List.append_nil] at hperm
      exact hperm
    have hdperm : (handsCards (({ g with spades_broken := false } : Game).deal_cards σ)).Perm
        g.deck := hdperm0
    have hdtrick : (({ g with spades_broken := false } : Game).deal_cards σ).current_trick
        = [] := by rw [hdtrick0]; exact htr
    have hdcpi : (({ g with spades_broken := false } : Game).deal_cards σ).current_player_index
        = g.current_player_index := hdcpi0
    simp only [Game.start_game, Game.can_start_game, if_pos hns, Game.execute_game_start]
    refine ⟨hd4, ?_, ?_, ?_, ?_⟩
    · show (({ g with spades_broken := false } : Game).deal_cards σ).current_player_index < 4
      rw [hdcpi]
      exact hq
    · show ((({ g with spades_broken := false } : Game).deal_cards σ).deck
          ++ handsCards (({ g with spades_broken := false } : Game).deal_cards σ)).Perm
        orderedDeck
      rw [hd0, List.nil_append]
      exact hdperm.trans hdeckperm
    · show ∀ c ∈ (({ g with spades_broken := false } : Game).deal_cards σ).current_trick,
        c ∈ (({ g with spades_broken := false } : Game).deal_cards σ).deck
      rw [hdtrick]
      intro c hc
      cases hc
    · show (({ g with spades_broken := false } : Game).deal_cards σ).current_trick = [] ∧
        (handsCards (({ g with spades_broken := false } : Game).deal_cards σ)).length = 52
      exact ⟨hdtrick, hdperm.length_eq.trans (hdeckperm.length_eq.trans orderedDeck_length)⟩
  · have hcs : g.can_start_game = some SpadesError.ImproperGameStage := by
      simp [Game.can_start_game, hns]
    simp only [Game.start_game, hcs]
    exact ⟨hp, hq, hperm, htd, hst⟩

theorem cardConservation_bet (b : Bet) (g : Game) (h : CardConservation g) :
    CardConservation (g.place_bet b).1 := by
  obtain ⟨hp, hq, hperm, htd, hst⟩ := h
  rcases hcp : g.can_place_bet b with - | e
  · rcases hstt : g.state with - | rs | rs | -
    · simp [Game.can_place_bet, hstt] at hcp
    · obtain ⟨htr, hhl⟩ : g.current_trick = [] ∧ (handsCards g).length = 52 := by
        unfold StageInv at hst
        rw [hstt] at hst
        exact hst
      simp only [Game.place_bet, hcp, hstt, Game.execute_bet]
      split_ifs with h3
      · subst h3
        dsimp only
        refine ⟨hp, by show (0 : Nat) < 4; omega, hperm, ?_, ?_⟩
        · intro c hc
          rw [htr] at hc
          cases hc
        · refine ⟨by omega, by show (0 : Nat) ≤ 12; omega, rfl, ?_, ?_⟩
          · rw [htr]
            rfl
          · show (handsCards g).length
                + 4 * ((g.scoring.add_bet g.current_player_index b).betting_over).trick
                + (3 + 1) % 4 = 52
            have hz : ((g.scoring.add_bet g.current_player_index b).betting_over).trick
                = 0 := rfl
            omega
      · dsimp only
        refine ⟨hp, Nat.mod_lt _ (by omega), hperm, ?_, ?_⟩
        · intro c hc
          rw [htr] at hc
          cases hc
        · exact ⟨htr, hhl⟩
    · simp [Game.can_place_bet, hstt] at hcp
    · simp [Game.can_place_bet, hstt] at hcp
  · simp only [Game.place_bet, hcp]
    exact ⟨hp, hq, hperm, htd, hst⟩

theorem cardConservation_deal_fresh (σ : List Card → List Card)
    (hσ : ∀ l : List Card, (σ l).Perm l) (ge : Game)
    (hp : ge.player.length = 4) (hq : ge.current_player_index < 4)
    (hdl : ge.deck.Perm orderedDeck)
    (htr : ge.current_trick = [])
    (hbs : ∃ n, ge.state = State.Betting n) :
    CardConservation (ge.deal_cards σ) := by
  obtain ⟨hd0, hd4, hdperm, hdstate, hdtrick, hdcpi, hdsc⟩ := deal_cards_spec σ hσ ge hp
  obtain ⟨n, hsn⟩ := hbs
  refine ⟨hd4, ?_, ?_, ?_, ?_⟩
  · rw [hdcpi]
    exact hq
  · rw [hd0, List.nil_append]
    exact hdperm.trans hdl
  · rw [hdtrick, htr]
    intro c hc
    cases hc
  · unfold StageInv
    rw [hdstate, hsn]
    refine ⟨by rw [hdtrick, htr], ?_⟩
    exact hdperm.length_eq.trans (hdl.length_eq.trans orderedDeck_length)

set_option maxHeartbeats 1000000 in
theorem execute_play_preserves (σ : List Card → List Card)
    (hσ : ∀ l : List Card, (σ l).Perm l) (g2 : Game) (rs : Nat) (card : Card)
    (hp : g2.player.length = 4) (hq : g2.current_player_index < 4)
    (hperm : (g2.deck ++ handsCards g2).Perm orderedDeck)
    (hcd : card ∈ g2.deck)
    (htd : ∀ c ∈ g2.current_trick, c ∈ g2.deck)
    (hrs : rs ≤ 3) (ht12 : g2.scoring.trick ≤ 12)
    (hib : g2.scoring.in_betting_stage = false)
    (htlen : g2.current_trick.length = rs)
    (hcount : (handsCards g2).length + 4 * g2.scoring.trick + rs + 1 = 52) :
    CardConservation (Game.execute_play_card σ g2 rs card).1 := by
  obtain ⟨hwlt, hwib, hwtr⟩ := trick_step_proj g2.scoring
    ((g2.current_player_index + 1) % 4) (g2.current_trick ++ [card])
  have htd2 : ∀ c ∈ g2.current_trick ++ [card], c ∈ g2.deck := by
    intro c hc
    rcases List.mem_append.1 hc with hc | hc
    · exact htd c hc
    · rw [List.mem_singleton.1 hc]
      exact hcd
  simp only [Game.execute_play_card]
  by_cases hsp : card.suit = Suit.Spades
  · rw [if_pos hsp]
    first
      | dsimp only
      | skip
    split_ifs with h3 hov hbet
    · -- thirteenth-trick settlement ended the game
      exact ⟨hp, hq, hperm, by intro c hc; simp at hc, trivial⟩
    · -- round settled: fresh deal for the next betting stage
      have ht : g2.scoring.trick = 12 := by
        by_contra hne
        rw [hwib, if_neg hne, hib] at hbet
        exact Bool.false_ne_true hbet
      have hhe : handsCards g2 = [] := by
        have hl0 : (handsCards g2).length = 0 := by omega
        exact List.length_eq_zero.1 hl0
      have hdl : g2.deck.Perm orderedDeck := by
        rw [hhe, List.append_nil] at hperm
        exact hperm
      exact cardConservation_deal_fresh σ hσ _ hp (by show (0 : Nat) < 4; omega) hdl rfl
        ⟨0, rfl⟩
    · -- trick won before the 13th: winner leads the next trick
      have ht : ¬ g2.scoring.trick = 12 := by
        intro h12
        rw [hwib, if_pos h12] at hbet
        exact hbet rfl
      refine ⟨hp, hwlt, hperm, by intro c hc; simp at hc, ?_⟩
      refine ⟨by omega, ?_, ?_, ?_, ?_⟩
      · rw [hwtr, if_neg ht]
        omega
      · rw [hwib, if_neg ht]
        exact hib
      · show ([] : List Card).length = (rs + 1) % 4
        simp only [List.length_nil]
        omega
      · show (handsCards g2).length
            + 4 * (g2.scoring.trick_step ((g2.current_player_index + 1) % 4)
                (g2.current_trick ++ [card])).1.trick
            + (rs + 1) % 4 = 52
        rw [hwtr, if_neg ht]
        omega
    · -- trick still open: next player's turn
      have hmod : (rs + 1) % 4 = rs + 1 := Nat.mod_eq_of_lt (by omega)
      refine ⟨hp, Nat.mod_lt _ (by omega), hperm, htd2, ?_⟩
      refine ⟨by omega, ht12, hib, ?_, ?_⟩
      · rw [List.length_append, htlen, hmod]
        rfl
      · show (handsCards g2).length + 4 * g2.scoring.trick + (rs + 1) % 4 = 52
        omega
  · rw [if_neg hsp]
    first
      | dsimp only
      | skip
    split_ifs with h3 hov hbet
    · -- thirteenth-trick settlement ended the game
      exact ⟨hp, hq, hperm, by intro c hc; simp at hc, trivial⟩
    · -- round settled: fresh deal for the next betting stage
      have ht : g2.scoring.trick = 12 := by
        by_contra hne
        rw [hwib, if_neg hne, hib] at hbet
        exact Bool.false_ne_true hbet
      have hhe : handsCards g2 = [] := by
        have hl0 : (handsCards g2).length = 0 := by omega
        exact List.length_eq_zero.1 hl0
      have hdl : g2.deck.Perm orderedDeck := by
        rw [hhe, List.append_nil] at hperm
        exact hperm
      exact cardConservation_deal_fresh σ hσ _ hp (by show (0 : Nat) < 4; omega) hdl rfl
        ⟨0, rfl⟩
    · -- trick won before the 13th: winner leads the next trick
      have ht : ¬ g2.scoring.trick = 12 := by
        intro h12
        rw [hwib, if_pos h12] at hbet
        exact hbet rfl
      refine ⟨hp, hwlt, hperm, by intro c hc; simp at hc, ?_⟩
      refine ⟨by omega, ?_, ?_, ?_, ?_⟩
      · rw [hwtr, if_neg ht]
        omega
      · rw [hwib, if_neg ht]
        exact hib
      · show ([] : List Card).length = (rs + 1) % 4
        simp only [List.length_nil]
        omega
      · show (handsCards g2).length
            + 4 * (g2.scoring.trick_step ((g2.current_player_index + 1) % 4)
                (g2.current_trick ++ [card])).1.trick
            + (rs + 1) % 4 = 52
        rw [hwtr, if_neg ht]
        omega
    · -- trick still open: next player's turn
      have hmod : (rs + 1) % 4 = rs + 1 := Nat.mod_eq_of_lt (by omega)
      refine ⟨hp, Nat.mod_lt _ (by omega), hperm, htd2, ?_⟩
      refine ⟨by omega, ht12, hib, ?_, ?_⟩
      · rw [List.length_append, htlen, hmod]
        rfl
      · show (handsCards g2).length + 4 * g2.scoring.trick + (rs + 1) % 4 = 52
        omega

/-- Playing a card preserves the card-conservation invariant: the played
card moves from the hand to the deck (the discard pile) and into the
current trick, and execute_play_card's bookkeeping keeps the counts. -/
theorem cardConservation_play (σ : List Card → List Card)
    (hσ : ∀ l : List Card, (σ l).Perm l) (c : Card) (g : Game)
    (h : CardConservation g) : CardConservation (g.play_card σ c).1 := by
  obtain ⟨hp, hq, hperm, htd, hst⟩ := h
  rcases hcp : g.can_play_card c with - | e
  · rcases hstt : g.state with - | n | rs | -
    · simp [Game.can_play_card, hstt] at hcp
    · simp [Game.can_play_card, hstt] at hcp
    · obtain ⟨hrs, ht12, hib, htlen, hcount⟩ :
          rs ≤ 3 ∧ g.scoring.trick ≤ 12 ∧ g.scoring.in_betting_stage = false ∧
          g.current_trick.length = rs ∧
          (handsCards g).length + 4 * g.scoring.trick + rs = 52 := by
        unfold StageInv at hst
        rw [hstt] at hst
        exact hst
      have hmem : c ∈ (g.player.getD g.current_player_index defaultPlayer).hand := by
        simp only [Game.can_play_card, hstt] at hcp
        by_contra hnm
        rw [Game.can_play_card_from_hand, if_pos hnm] at hcp
        exact Option.noConfusion hcp
      obtain ⟨hms, hlen1, hlen4⟩ :=
        hands_set_erase g.player g.current_player_index c hp hq hmem
      have hpermNew : ((g.deck ++ [c]) ++
          ((g.player.set g.current_player_index
            { g.player.getD g.current_player_index defaultPlayer with
              hand := (g.player.getD g.current_player_index defaultPlayer).hand.erase c }).map
            Player.hand).flatten).Perm orderedDeck := by
        refine List.Perm.trans ?_ hperm
        rw [← Multiset.coe_eq_coe]
        simp only [handsCards, ← Multiset.coe_add, Multiset.coe_singleton] at hms ⊢
        rw [← hms]
        abel
      have hcountNew : (((g.player.set g.current_player_index
            { g.player.getD g.current_player_index defaultPlayer with
              hand := (g.player.getD g.current_player_index defaultPlayer).hand.erase c }).map
            Player.hand).flatten).length + 4 * g.scoring.trick + rs + 1 = 52 := by
        have := hlen1
        unfold handsCards at hcount
        omega
      simp only [Game.play_card, hcp, hstt]
      by_cases h0 : rs = 0
      · rw [if_pos h0]
        first
          | dsimp only
          | skip
        refine execute_play_preserves σ hσ _ rs c ?_ ?_ ?_ ?_ ?_ hrs ht12 hib htlen ?_
        · exact hlen4
        · exact hq
        · exact hpermNew
        · show c ∈ g.deck ++ [c]
          exact List.mem_append_right _ (List.mem_singleton_self c)
        · show ∀ x ∈ g.current_trick, x ∈ g.deck ++ [c]
          intro x hx
          exact List.mem_append_left _ (htd x hx)
        · exact hcountNew
      · rw [if_neg h0]
        first
          | dsimp only
          | skip
        refine execute_play_preserves σ hσ _ rs c ?_ ?_ ?_ ?_ ?_ hrs ht12 hib htlen ?_
        · exact hlen4
        · exact hq
        · exact hpermNew
        · show c ∈ g.deck ++ [c]
          exact List.mem_append_right _ (List.mem_singleton_self c)
        · show ∀ x ∈ g.current_trick, x ∈ g.deck ++ [c]
          intro x hx
          exact List.mem_append_left _ (htd x hx)
        · exact hcountNew
    · simp [Game.can_play_card, hstt] at hcp
  · simp only [Game.play_card, hcp]
    exact ⟨hp, hq, hperm, htd, hst⟩

/-- Every reachable game satisfies the card-conservation invariant. -/
theorem reachable_cardConservation (g : Game) (h : Reachable g) :
    CardConservation g := by
  induction h with
  | init σ hσ id pids max_points => exact cardConservation_new σ hσ id pids max_points
  | start σ hσ g hr ih => exact cardConservation_start σ hσ g ih
  | bet b g hr ih => exact cardConservation_bet b g ih
  | play σ hσ c g hr ih => exact cardConservation_play σ hσ c g ih

/-- The game reached by: new game (players 10,11,12,13, 500 points to win,
identity shuffle), start, four bets of 3, then the current player (player 0,
holding the two of clubs) plays the two of clubs. -/
def demoPlayedGame : Game :=
  (((((((Game.new id 0 [10, 11, 12, 13] 500).start_game id).place_bet
      (Bet.Amount 3)).1.place_bet (Bet.Amount 3)).1.place_bet
      (Bet.Amount 3)).1.place_bet (Bet.Amount 3)).1.play_card id
      ⟨Suit.Clubs, Rank.Two⟩).1

/-- C8 counterexample: after a legal opening play the played card is
recorded in BOTH the deck (which play_card uses as the discard pile) and
the current trick, so the combined count across deck, hands and trick is
53, not 52, and the played card occupies two of the three places at once. -/
theorem card_count_53_cex :
    Reachable demoPlayedGame ∧
    demoPlayedGame.deck.length + (handsCards demoPlayedGame).length
        + demoPlayedGame.current_trick.length = 53 ∧
    (⟨Suit.Clubs, Rank.Two⟩ : Card) ∈ demoPlayedGame.deck ∧
    (⟨Suit.Clubs, Rank.Two⟩ : Card) ∈ demoPlayedGame.current_trick := by
  constructor
  · exact Reachable.play id (fun l => List.Perm.refl l) _ _
      (Reachable.bet _ _ (Reachable.bet _ _ (Reachable.bet _ _ (Reachable.bet _ _
        (Reachable.start id (fun l => List.Perm.refl l) _
          (Reachable.init id (fun l => List.Perm.refl l) 0 [10, 11, 12, 13] 500))))))
  · decide

/-- C8 (amended): on every reachable game the deck plus the four hands hold
exactly the 52 distinct cards (a permutation of the full ordered deck), and
every card of the current trick is also in the deck, so the combined count
across deck, hands and current trick is 52 plus the current trick's size. -/
theorem card_conservation (g : Game) (h : Reachable g) :
    (g.deck ++ handsCards g).Perm orderedDeck ∧
    g.deck.length + (handsCards g).length = 52 ∧
    (∀ c ∈ g.current_trick, c ∈ g.deck) ∧
    g.deck.length + (handsCards g).length + g.current_trick.length
      = 52 + g.current_trick.length := by
  obtain ⟨hp, hq, hperm, htd, hst⟩ := reachable_cardConservation g h
  have hlen : g.deck.length + (handsCards g).length = 52 := by
    have := hperm.length_eq
    rw [List.length_append] at this
    rw [this, orderedDeck_length]
  exact ⟨hperm, hlen, htd, by omega⟩

/-- C8 witness: the conservation statement evaluated on a concrete
reachable game (a freshly constructed one). -/
theorem card_conservation_witness :
    ((Game.new id 0 [10, 11, 12, 13] 500).deck
        ++ handsCards (Game.new id 0 [10, 11, 12, 13] 500)).Perm orderedDeck ∧
    (Game.new id 0 [10, 11, 12, 13] 500).deck.length
        + (handsCards (Game.new id 0 [10, 11, 12, 13] 500)).length = 52 ∧
    (∀ c ∈ (Game.new id 0 [10, 11, 12, 13] 500).current_trick,
        c ∈ (Game.new id 0 [10, 11, 12, 13] 500).deck) ∧
    (Game.new id 0 [10, 11, 12, 13] 500).deck.length
        + (handsCards (Game.new id 0 [10, 11, 12, 13] 500)).length
        + (Game.new id 0 [10, 11, 12, 13] 500).current_trick.length
      = 52 + (Game.new id 0 [10, 11, 12, 13] 500).current_trick.length :=
  card_conservation (Game.new id 0 [10, 11, 12, 13] 500)
    (Reachable.init id (fun l => List.Perm.refl l) 0 [10, 11, 12, 13] 500)

end Spades
